import Mathlib

/-!
Shallow embedding of the job-queue processor implemented in
`src/Colab_Automated.py`, together with proofs about its claim
protocol, job executor, processor loop and control plane.

Modelling conventions:
* The backing `JobQueue` worksheet is a `Sheet`: a list of rows, each a
  list of cell strings.  Row 1 (list index 0) is the header row; cells
  are addressed 1-based, as in gspread (`update_cell(row, col, value)`).
* External collaborators are explicit parameters: `json.loads` becomes
  a `parse : String → Option Payload` argument (`none` models a raised
  `JSONDecodeError`), `datetime.now().isoformat()` becomes timestamp
  oracle arguments, the other worksheets of the spreadsheet and the
  wall clock become an `Env`, and thread scheduling becomes boolean
  oracles.  A handler result dict is represented by its `json.dumps`
  serialization, since the core only ever stores that serialization.
* Fallible operations return `Option`/explicit `raised` flags; a
  Python exception corresponds to `none` / `raised = true`.
* All operations assume `setup_processor` has bound a spreadsheet
  (`_ensure_initialized` succeeds); the unbound case is modelled in
  the control plane (`start_processor_background`).
-/

namespace ColabAuto

/-- One row of the JobQueue sheet: a list of cell strings.  Column
order (1-based): jobId, jobName, status, payload, timestamp_enqueued,
user_email, timestamp_claimed, timestamp_completed, result, errorCode,
errorMessage. -/
abbrev SheetRow := List String

/-- The sheet contents as returned by `get_all_values()`: the header
row followed by the data rows. -/
abbrev Sheet := List SheetRow

/-- Read a cell, 1-based row and column, empty string for a missing
cell (a blank cell and an absent cell are indistinguishable reads). -/
def getCell (s : Sheet) (r c : Nat) : String :=
  (s.getD (r - 1) []).getD (c - 1) ""

/-- Write column `c` (1-based) of a row, padding with empty cells when
the row is shorter than the target column (the grid always has enough
columns: the sheet is created with 15). -/
def setColumn (row : SheetRow) (c : Nat) (v : String) : SheetRow :=
  if c - 1 < row.length then row.set (c - 1) v
  else (row ++ List.replicate (c - 1 - row.length) "") ++ [v]

/-- Unchecked cell write (1-based row and column). -/
def setCell (s : Sheet) (r c : Nat) (v : String) : Sheet :=
  s.set (r - 1) (setColumn (s.getD (r - 1) []) c v)

/-- `worksheet.update_cell(r, c, v)`: fails (`none`, modelling a raised
gspread error) when the row is outside the sheet grid. -/
def updateCell (s : Sheet) (r c : Nat) (v : String) : Option Sheet :=
  if 1 ≤ r ∧ r ≤ s.length then some (setCell s r c v) else none

/-- A parsed JSON payload.  The core treats the payload as an opaque
key/value mapping (handlers only use `payload.get`), so a flat
string-valued association list suffices. -/
abbrev Payload := List (String × String)

/-- The `job` dict built by `claim_next_job` and consumed by
`process_job`. -/
structure Job where
  row : Nat
  jobId : String
  jobName : String
  status : String
  payload : Payload
  timestamp_enqueued : String
  user_email : String
  timestamp_claimed : String
  deriving DecidableEq

/-- Construction of the `job` dict in `claim_next_job` (the part of
the `try` body after the two cell writes).  Returns `none` exactly
when the Python code raises there: `row[3]`, `row[4]` or `row[5]`
raising IndexError, or `json.loads(row[3])` failing on a non-empty
payload cell.  An empty payload cell yields the empty mapping without
calling the parser (`json.loads(row[3]) if row[3] else {}`). -/
def buildJob (i : Nat) (r : SheetRow) (parse : String → Option Payload)
    (ts : String) : Option Job :=
  match r[3]? with
  | none => none
  | some p =>
    match (if p = "" then some ([] : Payload) else parse p) with
    | none => none
    | some pl =>
      match r[4]?, r[5]? with
      | some te, some ue =>
        some ⟨i, r.getD 0 "", r.getD 1 "", "CLAIMED", pl, te, ue, ts⟩
      | _, _ => none

/-- The scan guard of `claim_next_job`:
`len(row) >= 3 and row[2] == JobStatus.PENDING`. -/
def pendingRow (r : SheetRow) : Prop :=
  3 ≤ r.length ∧ r.getD 2 "" = "PENDING"

instance (r : SheetRow) : Decidable (pendingRow r) := by
  unfold pendingRow; infer_instance

/-- A performed cell write: (row, column, value). -/
abbrev CellWrite := Nat × Nat × String

/-- Result of `claim_next_job`: the claimed job (if any), the sheet
after all cell writes, and the trace of performed cell writes. -/
structure ClaimRes where
  job : Option Job
  store : Sheet
  writes : List CellWrite
  deriving DecidableEq

/-- The scan loop of `claim_next_job` over the snapshot `rows`
(`all_values[1:]`), with `i` the 1-based sheet row of the head of
`rows` and `store` the live sheet.  For the first pending row the code
writes CLAIMED and the claimed timestamp, then builds the job dict; an
exception anywhere inside the `try` is caught and the scan continues
with the next row (`except ...: continue`), keeping any writes already
performed.  `tsAt i` is the `datetime.now().isoformat()` taken when
row `i` is attempted. -/
def claimScan (parse : String → Option Payload) (tsAt : Nat → String) :
    List SheetRow → Nat → Sheet → ClaimRes
  | [], _, store => ⟨none, store, []⟩
  | r :: rest, i, store =>
    if pendingRow r then
      match updateCell store i 3 "CLAIMED" with
      | none => claimScan parse tsAt rest (i + 1) store
      | some s1 =>
        match updateCell s1 i 7 (tsAt i) with
        | none =>
          let res := claimScan parse tsAt rest (i + 1) s1
          ⟨res.job, res.store, (i, 3, "CLAIMED") :: res.writes⟩
        | some s2 =>
          match buildJob i r parse (tsAt i) with
          | some job => ⟨some job, s2, [(i, 3, "CLAIMED"), (i, 7, tsAt i)]⟩
          | none =>
            let res := claimScan parse tsAt rest (i + 1) s2
            ⟨res.job, res.store,
              (i, 3, "CLAIMED") :: (i, 7, tsAt i) :: res.writes⟩
    else claimScan parse tsAt rest (i + 1) store

/-- `claim_next_job()`: scan the snapshot from sheet row 2 for the
first PENDING row and claim it.  Returns `none` when the sheet has at
most the header row or no claim attempt completes. -/
def claim_next_job (parse : String → Option Payload) (tsAt : Nat → String)
    (store : Sheet) : ClaimRes :=
  if store.length ≤ 1 then ⟨none, store, []⟩
  else claimScan parse tsAt (store.drop 1) 2 store

/-- Result of a state-mutating executor operation: the sheet after the
writes that happened, the trace of performed writes, and whether the
operation raised (Python exception propagating to the caller). -/
structure StoreRes where
  store : Sheet
  writes : List CellWrite
  raised : Bool
  deriving DecidableEq

/-- Truncation of a serialized handler result in `update_job_status`:
`result_str[:497] + '...'` when longer than 500 characters. -/
def truncResult (r : String) : String :=
  if 500 < r.length then r.take 497 ++ "..." else r

/-- Tail of `update_job_status`: `if error_message:` write
`error_message[:500]` into column 11.  `none` models the argument
defaulting to Python `None`; the empty string is falsy and skipped. -/
def ujsWriteErrorMessage (row : Nat) (em : Option String) (s : Sheet)
    (ws : List CellWrite) : StoreRes :=
  match em with
  | none => ⟨s, ws, false⟩
  | some m =>
    if m = "" then ⟨s, ws, false⟩
    else
      match updateCell s row 11 (m.take 500) with
      | none => ⟨s, ws, true⟩
      | some s' => ⟨s', ws ++ [(row, 11, m.take 500)], false⟩

/-- Tail of `update_job_status`: `if error_code:` write column 10,
then the error-message step. -/
def ujsWriteErrorCode (row : Nat) (ec em : Option String) (s : Sheet)
    (ws : List CellWrite) : StoreRes :=
  match ec with
  | none => ujsWriteErrorMessage row em s ws
  | some c =>
    if c = "" then ujsWriteErrorMessage row em s ws
    else
      match updateCell s row 10 c with
      | none => ⟨s, ws, true⟩
      | some s' => ujsWriteErrorMessage row em s' (ws ++ [(row, 10, c)])

/-- Tail of `update_job_status`: `if result is not None:` serialize,
truncate and write column 9, then the error-code/message steps. -/
def ujsWriteResult (row : Nat) (result ec em : Option String) (s : Sheet)
    (ws : List CellWrite) : StoreRes :=
  match result with
  | none => ujsWriteErrorCode row ec em s ws
  | some r =>
    match updateCell s row 9 (truncResult r) with
    | none => ⟨s, ws, true⟩
    | some s' => ujsWriteErrorCode row ec em s' (ws ++ [(row, 9, truncResult r)])

/-- `update_job_status(row, status, result, error_code, error_message)`:
write the status into column 3 and `datetime.now().isoformat()` (the
argument `ts`) into column 8 (timestamp_completed) on every call, then
conditionally the result, error code and error message columns.  The
`result` argument carries the `json.dumps` serialization of the result
dict.  A failing cell write is logged and re-raised (`raised = true`),
keeping the writes already performed. -/
def update_job_status (store : Sheet) (row : Nat) (status : String)
    (result ec em : Option String) (ts : String) : StoreRes :=
  match updateCell store row 3 status with
  | none => ⟨store, [], true⟩
  | some s1 =>
    match updateCell s1 row 8 ts with
    | none => ⟨s1, [(row, 3, status)], true⟩
    | some s2 =>
      ujsWriteResult row result ec em s2 [(row, 3, status), (row, 8, ts)]

/-- The Python exception raised by a handler or by dispatch:
(`type(e).__name__`, `str(e)`). -/
abbrev PyErr := String × String

/-- External collaborators of the handlers: the other worksheets of
the spreadsheet (`spreadsheet.worksheet(name).get_all_values()`, `none`
models `WorksheetNotFound`) and the wall clock used by
`handle_batch_cleanup` (`(datetime.now() - timedelta(days)).isoformat()`
as a function of the `days` value). -/
structure Env where
  worksheet : String → Option (List (List String))
  cutoff_iso : String → String

/-- `handle_export_csv`: requires a truthy `sheetName` in the payload,
reads the named worksheet and reports the number of data rows.  The
result dict is represented by its `json.dumps` serialization. -/
def handle_export_csv (env : Env) (payload : Payload) : Except PyErr String :=
  match payload.lookup "sheetName" with
  | none => .error ("ValueError", "sheetName é obrigatório no payload")
  | some sn =>
    if sn = "" then .error ("ValueError", "sheetName é obrigatório no payload")
    else
      match env.worksheet sn with
      | none => .error ("WorksheetNotFound", sn)
      | some [] => .error ("IndexError", "list index out of range")
      | some (_ :: rows) =>
        .ok ("\x7b\"message\": \"CSV gerado com sucesso\", \"rows\": "
          ++ toString rows.length ++ ", \"sheet\": \"" ++ sn ++ "\"\x7d")

/-- `handle_batch_cleanup`: pure except for reading the clock. -/
def handle_batch_cleanup (env : Env) (payload : Payload) : Except PyErr String :=
  let days := (payload.lookup "days").getD "30"
  .ok ("\x7b\"message\": \"Limpeza concluída (>" ++ days
    ++ " dias)\", \"cutoff_date\": \"" ++ env.cutoff_iso days ++ "\"\x7d")

/-- `handle_stats_calculation`: pure; `sheet` is `null` when the
payload has no `sheetName`. -/
def handle_stats_calculation (payload : Payload) : Except PyErr String :=
  match payload.lookup "sheetName" with
  | some sn =>
    .ok ("\x7b\"message\": \"Estatísticas calculadas\", \"sheet\": \""
      ++ sn ++ "\"\x7d")
  | none => .ok ("\x7b\"message\": \"Estatísticas calculadas\", \"sheet\": null\x7d")

/-- `handle_generate_report`: pure constant result. -/
def handle_generate_report (_payload : Payload) : Except PyErr String :=
  .ok ("\x7b\"message\": \"Relatório gerado\", \"format\": \"PDF\"\x7d")

/-- The handler dispatch chain of `process_job`.  Unknown job names
raise `ValueError(f"Job desconhecido: {job_name}")` without invoking
any handler. -/
def dispatch (env : Env) (name : String) (payload : Payload) :
    Except PyErr String :=
  if name = "EXPORT_CSV" then handle_export_csv env payload
  else if name = "BATCH_CLEANUP" then handle_batch_cleanup env payload
  else if name = "GENERATE_REPORT" then handle_generate_report payload
  else if name = "CALCULATE_STATS" then handle_stats_calculation payload
  else .error ("ValueError", "Job desconhecido: " ++ name)

/-- The exception a failing gspread cell write surfaces inside
`process_job`'s `except` block (external to the repository; the exact
code and message do not matter to any property proved here). -/
def storeErrCode : String := "APIError"

/-- Message counterpart of `storeErrCode`. -/
def storeErrMsg : String := "api error"

/-- `process_job(job)`: write RUNNING, dispatch, then write COMPLETED
with the result, and on any exception (handler failure, unknown job,
or a failed status write) write FAILED with the exception's type name
and message.  `ts1`, `ts2`, `ts3` are the successive
`datetime.now().isoformat()` values of the (up to three)
`update_job_status` calls. -/
def process_job (env : Env) (job : Job) (ts1 ts2 ts3 : String)
    (store : Sheet) : StoreRes :=
  let r1 := update_job_status store job.row "RUNNING" none none none ts1
  if r1.raised then
    let r2 := update_job_status r1.store job.row "FAILED" none
      (some storeErrCode) (some storeErrMsg) ts2
    ⟨r2.store, r1.writes ++ r2.writes, r2.raised⟩
  else
    match dispatch env job.jobName job.payload with
    | .ok res =>
      let r2 := update_job_status r1.store job.row "COMPLETED" (some res)
        none none ts2
      if r2.raised then
        let r3 := update_job_status r2.store job.row "FAILED" none
          (some storeErrCode) (some storeErrMsg) ts3
        ⟨r3.store, r1.writes ++ (r2.writes ++ r3.writes), r3.raised⟩
      else ⟨r2.store, r1.writes ++ r2.writes, false⟩
    | .error e =>
      let r2 := update_job_status r1.store job.row "FAILED" none
        (some e.1) (some e.2) ts2
      ⟨r2.store, r1.writes ++ r2.writes, r2.raised⟩

/-- Python truthiness of an optional numeric parameter: `None` and `0`
are falsy (`if max_iterations and ...`, `if auto_stop_minutes:`). -/
def truthy : Option Nat → Bool
  | none => false
  | some n => n != 0

/-- Outcome of one claim/process body of `_processor_loop`: either the
loop breaks out of the `while` (auto-stop on idle, or an unhandled
exception from `process_job`), or it continues with the new idle count
and sheet. -/
inductive StepRes where
  | stop (store : Sheet)
  | cont (idle : Nat) (store : Sheet)
  deriving DecidableEq

/-- The claim/process body of one `_processor_loop` iteration:
`claim_next_job()`; on a job, `process_job(job)` and reset
`idle_count` to 0; on a miss, increment `idle_count` and break when it
reaches 10 while `auto_stop_minutes` is truthy.  `tsAt it` is the
timestamp oracle for iteration `it` (argument 0, 1, 2 for the
executor's successive clock reads; as a row-indexed function for the
claim's per-attempt clock reads). -/
def loop_body (parse : String → Option Payload) (env : Env)
    (tsAt : Nat → Nat → String) (autoStop : Option Nat)
    (it idle : Nat) (store : Sheet) : StepRes :=
  let c := claim_next_job parse (tsAt it) store
  match c.job with
  | some job =>
    let p := process_job env job (tsAt it 0) (tsAt it 1) (tsAt it 2) c.store
    if p.raised then .stop p.store else .cont 0 p.store
  | none =>
    let idle' := idle + 1
    if truthy autoStop ∧ 10 ≤ idle' then .stop c.store
    else .cont idle' c.store

/-- Exit record of `_processor_loop`: how many times the claim/process
body ran, the final sheet, and the `is_running` flag after the
`finally` block (always cleared on exit). -/
structure LoopExit where
  bodyRuns : Nat
  store : Sheet
  running_after : Bool
  deriving DecidableEq

/-- `_processor_loop(interval, max_iterations, auto_stop_minutes)`,
fuel-indexed: `none` means the loop is still running after `fuel`
iterations (so a `none` for every fuel is a non-terminating loop).
Per iteration, in code order: the `while _processor_state['is_running']`
check (`runAt it`, the flag value seen at the start of iteration
`it + 1`), `iteration += 1`, the `max_iterations` check, the
`auto_stop_minutes` elapsed-time check (`elapsedAt it'` is the value of
`(time.time() - start_time) / 60` at iteration `it'`), then the
claim/process body and `time.sleep(interval)`.  Every exit passes
through `finally`, which clears `is_running`. -/
def processor_go (parse : String → Option Payload) (env : Env)
    (tsAt : Nat → Nat → String) (elapsedAt : Nat → ℚ) (runAt : Nat → Bool)
    (maxIter autoStop : Option Nat) :
    Nat → Nat → Nat → Nat → Sheet → Option LoopExit
  | 0, _, _, _, _ => none
  | fuel + 1, it, idle, br, store =>
    if runAt it = false then some ⟨br, store, false⟩
    else
      let it' := it + 1
      if truthy maxIter ∧ maxIter.getD 0 < it' then some ⟨br, store, false⟩
      else if truthy autoStop ∧ (autoStop.getD 0 : ℚ) ≤ elapsedAt it' then
        some ⟨br, store, false⟩
      else
        match loop_body parse env tsAt autoStop it' idle store with
        | .stop s => some ⟨br + 1, s, false⟩
        | .cont idle' s =>
          processor_go parse env tsAt elapsedAt runAt maxIter autoStop
            fuel it' idle' (br + 1) s

/-- `_processor_loop` started with fresh counters. -/
def processor_loop (parse : String → Option Payload) (env : Env)
    (tsAt : Nat → Nat → String) (elapsedAt : Nat → ℚ) (runAt : Nat → Bool)
    (maxIter autoStop : Option Nat) (fuel : Nat) (store : Sheet) :
    Option LoopExit :=
  processor_go parse env tsAt elapsedAt runAt maxIter autoStop fuel 0 0 0 store

/-- The fields of the `_processor_state` singleton that the control
plane reads and writes: whether `setup_processor` bound a spreadsheet,
the `is_running` flag, and the background thread handle. -/
structure ProcState where
  spreadsheet_bound : Bool
  is_running : Bool
  processor_thread : Option Nat
  deriving DecidableEq

/-- Return value and effects of `start_processor_background`:
the reply dict (`success`, `message`, plus `auto_stop_minutes` when
present), the state afterwards, and whether a new loop thread was
spawned. -/
structure StartOut where
  success : Bool
  message : String
  auto_stop_minutes : Option (Option Nat)
  state : ProcState
  spawned : Bool
  deriving DecidableEq

/-- `start_processor_background(interval, max_iterations,
auto_stop_minutes)`: refuse when already running or when no
spreadsheet is bound; otherwise set `is_running`, spawn the loop
thread (`newThread` is the fresh thread handle) and store its handle. -/
def start_processor_background (st : ProcState) (_interval : Nat)
    (_max_iterations auto_stop_minutes : Option Nat) (newThread : Nat) :
    StartOut :=
  if st.is_running then
    ⟨false, "Processador já está rodando", none, st, false⟩
  else if st.spreadsheet_bound = false then
    ⟨false, "Processador não configurado", none, st, false⟩
  else
    ⟨true, "Processador iniciado em background", some auto_stop_minutes,
      { st with is_running := true, processor_thread := some newThread },
      true⟩

/-- Return value and effects of `stop_processor`. -/
structure StopOut where
  success : Bool
  message : String
  state : ProcState
  deriving DecidableEq

/-- `stop_processor()`: refuse when not running; otherwise clear
`is_running`, join the thread with a 10-second timeout and report
success.  `_thread_exited` is whether the thread actually finished
within the timeout; the code ignores the join result. -/
def stop_processor (st : ProcState) (_thread_exited : Bool) : StopOut :=
  if st.is_running = false then
    ⟨false, "Processador não está rodando", st⟩
  else
    ⟨true, "Processador parado", { st with is_running := false }⟩

/-! ### Fixtures used by concrete runs (counterexamples and witnesses) -/

/-- The header row written by `setup_processor`. -/
def hdr11 : SheetRow :=
  ["jobId", "jobName", "status", "payload", "timestamp_enqueued",
   "user_email", "timestamp_claimed", "timestamp_completed",
   "result", "errorCode", "errorMessage"]

/-- A concrete model of `json.loads` restricted to the payload strings
occurring in the fixture sheets: it is only ever applied to the
malformed payload texts `"notjson"` and `"oops"`, on which the real
`json.loads` raises, so it may fail everywhere. -/
def parse0 : String → Option Payload := fun _ => none

/-- A concrete timestamp oracle (distinct non-empty value per read). -/
def tsB : Nat → String := fun n => "TS" ++ toString n

/-- A concrete two-argument clock oracle for loop runs. -/
def tsB2 : Nat → Nat → String := fun it n => "TS" ++ toString it ++ "-" ++ toString n

/-- A concrete environment; no fixture handler run consults it. -/
def env0 : Env := ⟨fun _ => none, fun _ => ""⟩

/-- Default job used only to eliminate `Option` in closed statements. -/
def defaultJob : Job := ⟨0, "", "", "", [], "", "", ""⟩

/-- Queue with a single PENDING row whose payload cell is non-empty
and not valid JSON. -/
def storeC1 : Sheet :=
  [hdr11, ["J1", "EXPORT_CSV", "PENDING", "notjson", "2024-01-01", "u@x"]]

/-- Queue with two PENDING rows; the first has a malformed payload,
the second an empty one. -/
def storeC2 : Sheet :=
  [hdr11, ["J1", "EXPORT_CSV", "PENDING", "oops", "2024-01-01", "u@x"],
   ["J2", "GENERATE_REPORT", "PENDING", "", "2024-01-02", "v@x"]]

/-- Queue with a single PENDING row carrying an unknown job name and
an empty payload. -/
def storeC4 : Sheet :=
  [hdr11, ["J1", "UNKNOWN", "PENDING", "", "2024-01-01T00:00:00", "u@example.com"]]

/-- Queue with a single PENDING row for the registered GENERATE_REPORT
handler. -/
def storeC3 : Sheet :=
  [hdr11, ["J7", "GENERATE_REPORT", "PENDING", "", "2024-01-03", "w@x"]]

/-- Queue with a single PENDING row named like the spec scenario for
unknown jobs. -/
def storeC9 : Sheet :=
  [hdr11, ["J9", "UNKNOWN_X", "PENDING", "", "2024-01-04", "w@x"]]

/-- The claimed job of `storeC3`. -/
def jobC3 : Job := ⟨2, "J7", "GENERATE_REPORT", "CLAIMED", [], "2024-01-03", "w@x", "TSX"⟩

/-- The claimed job of `storeC9` (unknown job name). -/
def jobC9 : Job := ⟨2, "J9", "UNKNOWN_X", "CLAIMED", [], "2024-01-04", "w@x", "TSY"⟩

/-- A 501-character string, exceeding the truncation threshold. -/
def longA : String := ⟨List.replicate 501 'a'⟩

/-- A 501-character error message. -/
def longB : String := ⟨List.replicate 501 'b'⟩

/-! ### Cell-level lemmas -/

theorem length_setCell (s : Sheet) (r c : Nat) (v : String) :
    (setCell s r c v).length = s.length := by
  simp [setCell]

theorem updateCell_some {s : Sheet} {r : Nat} (c : Nat) (v : String)
    (h1 : 1 ≤ r) (h2 : r ≤ s.length) :
    updateCell s r c v = some (setCell s r c v) := by
  simp [updateCell, h1, h2]

theorem updateCell_none {s : Sheet} {r : Nat} (c : Nat) (v : String)
    (h : ¬(1 ≤ r ∧ r ≤ s.length)) : updateCell s r c v = none := by
  simp only [updateCell, if_neg h]

theorem updateCell_length {s s' : Sheet} {r c : Nat} {v : String}
    (h : updateCell s r c v = some s') : s'.length = s.length := by
  unfold updateCell at h
  split at h
  · cases h; simp [length_setCell]
  · cases h

theorem updateCell_range {s s' : Sheet} {r c : Nat} {v : String}
    (h : updateCell s r c v = some s') : 1 ≤ r ∧ r ≤ s.length := by
  unfold updateCell at h
  split at h
  · assumption
  · cases h

theorem getD_set_self {α : Type} (l : List α) (i : Nat) (a d : α)
    (h : i < l.length) : (l.set i a).getD i d = a := by
  rw [List.getD_eq_getElem?_getD, List.getElem?_set_self h]
  rfl

theorem getD_set_ne {α : Type} (l : List α) {i j : Nat} (a d : α)
    (h : i ≠ j) : (l.set i a).getD j d = l.getD j d := by
  rw [List.getD_eq_getElem?_getD, List.getElem?_set_ne h,
    ← List.getD_eq_getElem?_getD]

theorem getD_setColumn_self (row : SheetRow) (c : Nat) (v : String) :
    (setColumn row c v).getD (c - 1) "" = v := by
  unfold setColumn
  split
  · next h => exact getD_set_self row (c - 1) v "" h
  · next h =>
    have hlen : (row ++ List.replicate (c - 1 - row.length) "").length = c - 1 := by
      simp only [List.length_append, List.length_replicate]
      omega
    rw [List.getD_eq_getElem?_getD, List.getElem?_append_right (le_of_eq hlen),
      hlen, Nat.sub_self]
    rfl

theorem getD_setColumn_ne (row : SheetRow) {c c' : Nat} (v : String)
    (hc : 1 ≤ c) (hc' : 1 ≤ c') (hne : c ≠ c') :
    (setColumn row c v).getD (c' - 1) "" = row.getD (c' - 1) "" := by
  have hidx : c - 1 ≠ c' - 1 := by omega
  unfold setColumn
  split
  · rw [List.getD_eq_getElem?_getD, List.getElem?_set_ne hidx,
      ← List.getD_eq_getElem?_getD]
  · next h =>
    have hrow : row.length ≤ c - 1 := by omega
    rcases Nat.lt_or_ge (c' - 1) row.length with hlt | hge
    · rw [List.getD_eq_getElem?_getD, List.getElem?_append, if_pos, List.getElem?_append,
        if_pos hlt, ← List.getD_eq_getElem?_getD]
      simp [List.length_append, List.length_replicate]
      omega
    · rw [List.getD_eq_default _ _ hge]
      rcases Nat.lt_or_ge (c' - 1) (c - 1) with hlt2 | hge2
      · rw [List.getD_eq_getElem?_getD, List.getElem?_append, if_pos, List.getElem?_append_right hge,
          List.getElem?_replicate, if_pos]
        · rfl
        · omega
        · simp [List.length_append, List.length_replicate]; omega
      · have : c - 1 < c' - 1 := by omega
        apply List.getD_eq_default
        simp [List.length_append, List.length_replicate]
        omega

theorem getCell_setCell_self {s : Sheet} {r : Nat} (c : Nat) (v : String)
    (h1 : 1 ≤ r) (h2 : r ≤ s.length) :
    getCell (setCell s r c v) r c = v := by
  have hidx : r - 1 < s.length := by omega
  unfold getCell setCell
  rw [getD_set_self s (r - 1) (setColumn (s.getD (r - 1) []) c v) [] hidx,
    getD_setColumn_self]

theorem getCell_setCell_ne {s : Sheet} {r r' c c' : Nat} (v : String)
    (h1 : 1 ≤ r) (h1' : 1 ≤ r') (hc : 1 ≤ c) (hc' : 1 ≤ c')
    (hne : r ≠ r' ∨ c ≠ c') :
    getCell (setCell s r c v) r' c' = getCell s r' c' := by
  unfold getCell setCell
  rcases eq_or_ne r r' with hr | hr
  · subst hr
    rcases hne with hne | hne
    · exact absurd rfl hne
    · rcases Nat.lt_or_ge (r - 1) s.length with hlt | hge
      · rw [getD_set_self s (r - 1) (setColumn (s.getD (r - 1) []) c v) [] hlt,
          getD_setColumn_ne _ v hc hc' hne]
      · have hset : s.set (r - 1) (setColumn (s.getD (r - 1) []) c v) = s :=
          List.set_eq_of_length_le (by omega)
        rw [hset]
  · have hidx : r - 1 ≠ r' - 1 := by omega
    rw [getD_set_ne s (setColumn (s.getD (r - 1) []) c v) [] hidx]

theorem updateCell_eq_setCell {s s' : Sheet} {r c : Nat} {v : String}
    (h : updateCell s r c v = some s') : s' = setCell s r c v := by
  unfold updateCell at h
  split at h
  · cases h; rfl
  · cases h

/-! ### Claim-protocol lemmas -/

theorem buildJob_row {i : Nat} {r : SheetRow} {parse : String → Option Payload}
    {ts : String} {j : Job} (h : buildJob i r parse ts = some j) : j.row = i := by
  unfold buildJob at h
  split at h
  · exact Option.noConfusion h
  · split at h
    · exact Option.noConfusion h
    · split at h
      all_goals first
      | exact Option.noConfusion h
      | (injection h with h2; subst h2; rfl)

theorem claimScan_cons_notPending {parse : String → Option Payload}
    {tsAt : Nat → String} {r : SheetRow} {rest : List SheetRow} {i : Nat}
    {store : Sheet} (hp : ¬ pendingRow r) :
    claimScan parse tsAt (r :: rest) i store
      = claimScan parse tsAt rest (i + 1) store := by
  simp only [claimScan, if_neg hp]

theorem claimScan_cons_u1none {parse : String → Option Payload}
    {tsAt : Nat → String} {r : SheetRow} {rest : List SheetRow} {i : Nat}
    {store : Sheet} (hp : pendingRow r)
    (h1 : updateCell store i 3 "CLAIMED" = none) :
    claimScan parse tsAt (r :: rest) i store
      = claimScan parse tsAt rest (i + 1) store := by
  simp only [claimScan, if_pos hp, h1]

theorem claimScan_cons_u2none {parse : String → Option Payload}
    {tsAt : Nat → String} {r : SheetRow} {rest : List SheetRow} {i : Nat}
    {store s1 : Sheet} (hp : pendingRow r)
    (h1 : updateCell store i 3 "CLAIMED" = some s1)
    (h2 : updateCell s1 i 7 (tsAt i) = none) :
    claimScan parse tsAt (r :: rest) i store
      = ⟨(claimScan parse tsAt rest (i + 1) s1).job,
         (claimScan parse tsAt rest (i + 1) s1).store,
         (i, 3, "CLAIMED") :: (claimScan parse tsAt rest (i + 1) s1).writes⟩ := by
  simp only [claimScan, if_pos hp, h1, h2]

theorem claimScan_cons_found {parse : String → Option Payload}
    {tsAt : Nat → String} {r : SheetRow} {rest : List SheetRow} {i : Nat}
    {store s1 s2 : Sheet} {job : Job} (hp : pendingRow r)
    (h1 : updateCell store i 3 "CLAIMED" = some s1)
    (h2 : updateCell s1 i 7 (tsAt i) = some s2)
    (hb : buildJob i r parse (tsAt i) = some job) :
    claimScan parse tsAt (r :: rest) i store
      = ⟨some job, s2, [(i, 3, "CLAIMED"), (i, 7, tsAt i)]⟩ := by
  simp only [claimScan, if_pos hp, h1, h2, hb]

theorem claimScan_cons_buildFail {parse : String → Option Payload}
    {tsAt : Nat → String} {r : SheetRow} {rest : List SheetRow} {i : Nat}
    {store s1 s2 : Sheet} (hp : pendingRow r)
    (h1 : updateCell store i 3 "CLAIMED" = some s1)
    (h2 : updateCell s1 i 7 (tsAt i) = some s2)
    (hb : buildJob i r parse (tsAt i) = none) :
    claimScan parse tsAt (r :: rest) i store
      = ⟨(claimScan parse tsAt rest (i + 1) s2).job,
         (claimScan parse tsAt rest (i + 1) s2).store,
         (i, 3, "CLAIMED") :: (i, 7, tsAt i)
           :: (claimScan parse tsAt rest (i + 1) s2).writes⟩ := by
  simp only [claimScan, if_pos hp, h1, h2, hb]

theorem claimScan_store_length (parse : String → Option Payload)
    (tsAt : Nat → String) :
    ∀ (rows : List SheetRow) (i : Nat) (store : Sheet),
      (claimScan parse tsAt rows i store).store.length = store.length := by
  intro rows
  induction rows with
  | nil => intro i store; rfl
  | cons r rest ih =>
    intro i store
    by_cases hp : pendingRow r
    · cases h1 : updateCell store i 3 "CLAIMED" with
      | none => rw [claimScan_cons_u1none hp h1]; exact ih (i + 1) store
      | some s1 =>
        cases h2 : updateCell s1 i 7 (tsAt i) with
        | none =>
          rw [claimScan_cons_u2none hp h1 h2]
          simp only []
          rw [ih (i + 1) s1, updateCell_length h1]
        | some s2 =>
          cases h3 : buildJob i r parse (tsAt i) with
          | some job =>
            rw [claimScan_cons_found hp h1 h2 h3]
            simp only []
            rw [updateCell_length h2, updateCell_length h1]
          | none =>
            rw [claimScan_cons_buildFail hp h1 h2 h3]
            simp only []
            rw [ih (i + 1) s2, updateCell_length h2, updateCell_length h1]
    · rw [claimScan_cons_notPending hp]; exact ih (i + 1) store

theorem claimScan_job_row (parse : String → Option Payload)
    (tsAt : Nat → String) :
    ∀ (rows : List SheetRow) (i : Nat) (store : Sheet) (j : Job),
      (claimScan parse tsAt rows i store).job = some j →
      i ≤ j.row ∧ j.row ≤ store.length := by
  intro rows
  induction rows with
  | nil => intro i store j h; exact Option.noConfusion h
  | cons r rest ih =>
    intro i store j h
    by_cases hp : pendingRow r
    · cases h1 : updateCell store i 3 "CLAIMED" with
      | none =>
        rw [claimScan_cons_u1none hp h1] at h
        have := ih (i + 1) store j h
        omega
      | some s1 =>
        cases h2 : updateCell s1 i 7 (tsAt i) with
        | none =>
          rw [claimScan_cons_u2none hp h1 h2] at h
          simp only [] at h
          have := ih (i + 1) s1 j h
          have hl := updateCell_length h1
          omega
        | some s2 =>
          cases h3 : buildJob i r parse (tsAt i) with
          | some job =>
            rw [claimScan_cons_found hp h1 h2 h3] at h
            simp only [Option.some.injEq] at h
            subst h
            have hr := buildJob_row h3
            have hrange := updateCell_range h1
            omega
          | none =>
            rw [claimScan_cons_buildFail hp h1 h2 h3] at h
            simp only [] at h
            have := ih (i + 1) s2 j h
            have hl1 := updateCell_length h1
            have hl2 := updateCell_length h2
            omega
    · rw [claimScan_cons_notPending hp] at h
      have := ih (i + 1) store j h
      omega

theorem claimScan_frozen (parse : String → Option Payload)
    (tsAt : Nat → String) :
    ∀ (rows : List SheetRow) (i : Nat) (store : Sheet) (r' c' : Nat),
      1 ≤ r' → r' < i → 1 ≤ c' →
      getCell (claimScan parse tsAt rows i store).store r' c'
        = getCell store r' c' := by
  intro rows
  induction rows with
  | nil => intro i store r' c' h1 h2 h3; rfl
  | cons r rest ih =>
    intro i store r' c' h1 h2 h3
    by_cases hp : pendingRow r
    · cases hu1 : updateCell store i 3 "CLAIMED" with
      | none =>
        rw [claimScan_cons_u1none hp hu1]
        exact ih (i + 1) store r' c' h1 (by omega) h3
      | some s1 =>
        have hs1 : s1 = setCell store i 3 "CLAIMED" := updateCell_eq_setCell hu1
        have hfr1 : getCell s1 r' c' = getCell store r' c' := by
          rw [hs1, getCell_setCell_ne _ (by omega) h1 (by omega) h3 (Or.inl (by omega))]
        cases hu2 : updateCell s1 i 7 (tsAt i) with
        | none =>
          rw [claimScan_cons_u2none hp hu1 hu2]
          simp only []
          rw [ih (i + 1) s1 r' c' h1 (by omega) h3, hfr1]
        | some s2 =>
          have hs2 : s2 = setCell s1 i 7 (tsAt i) := updateCell_eq_setCell hu2
          have hfroze : getCell s2 r' c' = getCell store r' c' := by
            rw [hs2, getCell_setCell_ne _ (by omega) h1 (by omega) h3 (Or.inl (by omega)),
              hfr1]
          cases h3' : buildJob i r parse (tsAt i) with
          | some job =>
            rw [claimScan_cons_found hp hu1 hu2 h3']
            exact hfroze
          | none =>
            rw [claimScan_cons_buildFail hp hu1 hu2 h3']
            simp only []
            rw [ih (i + 1) s2 r' c' h1 (by omega) h3, hfroze]
    · rw [claimScan_cons_notPending hp]
      exact ih (i + 1) store r' c' h1 (by omega) h3

theorem claimScan_skip (parse : String → Option Payload) (tsAt : Nat → String) :
    ∀ (pre rest : List SheetRow) (i : Nat) (store : Sheet),
      (∀ r ∈ pre, ¬ pendingRow r) →
      claimScan parse tsAt (pre ++ rest) i store
        = claimScan parse tsAt rest (i + pre.length) store := by
  intro pre
  induction pre with
  | nil => intro rest i store _; simp
  | cons r pre ih =>
    intro rest i store h
    have hr : ¬ pendingRow r := h r (by simp)
    have hlen : i + (r :: pre).length = (i + 1) + pre.length := by
      simp only [List.length_cons]
      omega
    rw [List.cons_append, claimScan_cons_notPending hr, hlen]
    exact ih rest (i + 1) store (fun x hx => h x (List.mem_cons_of_mem r hx))

theorem claimScan_writes_row_ge (parse : String → Option Payload)
    (tsAt : Nat → String) :
    ∀ (rows : List SheetRow) (i : Nat) (store : Sheet) (w : CellWrite),
      w ∈ (claimScan parse tsAt rows i store).writes → i ≤ w.1 := by
  intro rows
  induction rows with
  | nil => intro i store w hw; simp [claimScan] at hw
  | cons r rest ih =>
    intro i store w hw
    by_cases hp : pendingRow r
    · cases h1 : updateCell store i 3 "CLAIMED" with
      | none =>
        rw [claimScan_cons_u1none hp h1] at hw
        have := ih (i + 1) store w hw
        omega
      | some s1 =>
        cases h2 : updateCell s1 i 7 (tsAt i) with
        | none =>
          rw [claimScan_cons_u2none hp h1 h2] at hw
          simp only [List.mem_cons] at hw
          rcases hw with hw | hw
          · subst hw; rfl
          · have := ih (i + 1) s1 w hw
            omega
        | some s2 =>
          cases h3 : buildJob i r parse (tsAt i) with
          | some job =>
            rw [claimScan_cons_found hp h1 h2 h3] at hw
            simp only [List.mem_cons, List.mem_singleton] at hw
            rcases hw with hw | hw | hw
            · subst hw; rfl
            · subst hw; rfl
            · simp at hw
          | none =>
            rw [claimScan_cons_buildFail hp h1 h2 h3] at hw
            simp only [List.mem_cons] at hw
            rcases hw with hw | hw | hw
            · subst hw; rfl
            · subst hw; rfl
            · have := ih (i + 1) s2 w hw
              omega
    · rw [claimScan_cons_notPending hp] at hw
      have := ih (i + 1) store w hw
      omega

theorem claimScan_writes_cols (parse : String → Option Payload)
    (tsAt : Nat → String) :
    ∀ (rows : List SheetRow) (i : Nat) (store : Sheet) (w : CellWrite),
      w ∈ (claimScan parse tsAt rows i store).writes →
      w.2.1 = 3 ∨ w.2.1 = 7 := by
  intro rows
  induction rows with
  | nil => intro i store w hw; simp [claimScan] at hw
  | cons r rest ih =>
    intro i store w hw
    by_cases hp : pendingRow r
    · cases h1 : updateCell store i 3 "CLAIMED" with
      | none =>
        rw [claimScan_cons_u1none hp h1] at hw
        exact ih (i + 1) store w hw
      | some s1 =>
        cases h2 : updateCell s1 i 7 (tsAt i) with
        | none =>
          rw [claimScan_cons_u2none hp h1 h2] at hw
          simp only [List.mem_cons] at hw
          rcases hw with hw | hw
          · subst hw; left; rfl
          · exact ih (i + 1) s1 w hw
        | some s2 =>
          cases h3 : buildJob i r parse (tsAt i) with
          | some job =>
            rw [claimScan_cons_found hp h1 h2 h3] at hw
            simp only [List.mem_cons, List.mem_singleton] at hw
            rcases hw with hw | hw | hw
            · subst hw; left; rfl
            · subst hw; right; rfl
            · simp at hw
          | none =>
            rw [claimScan_cons_buildFail hp h1 h2 h3] at hw
            simp only [List.mem_cons] at hw
            rcases hw with hw | hw | hw
            · subst hw; left; rfl
            · subst hw; right; rfl
            · exact ih (i + 1) s2 w hw
    · rw [claimScan_cons_notPending hp] at hw
      exact ih (i + 1) store w hw

theorem claimScan_filter7_pairwise (parse : String → Option Payload)
    (tsAt : Nat → String) :
    ∀ (rows : List SheetRow) (i : Nat) (store : Sheet),
      List.Pairwise (· < ·)
        (((claimScan parse tsAt rows i store).writes.filter
          (fun w => w.2.1 == 7)).map (fun w => w.1)) := by
  intro rows
  induction rows with
  | nil => intro i store; simp [claimScan]
  | cons r rest ih =>
    intro i store
    by_cases hp : pendingRow r
    · cases h1 : updateCell store i 3 "CLAIMED" with
      | none => rw [claimScan_cons_u1none hp h1]; exact ih (i + 1) store
      | some s1 =>
        cases h2 : updateCell s1 i 7 (tsAt i) with
        | none =>
          rw [claimScan_cons_u2none hp h1 h2]
          simp only []
          rw [List.filter_cons_of_neg (by simp)]
          exact ih (i + 1) s1
        | some s2 =>
          cases h3 : buildJob i r parse (tsAt i) with
          | some job =>
            rw [claimScan_cons_found hp h1 h2 h3]
            simp
          | none =>
            rw [claimScan_cons_buildFail hp h1 h2 h3]
            simp only []
            rw [List.filter_cons_of_neg (by simp),
              List.filter_cons_of_pos (by rfl), List.map_cons,
              List.pairwise_cons]
            constructor
            · intro x hx
              rcases List.mem_map.mp hx with ⟨w, hw, rfl⟩
              have := claimScan_writes_row_ge parse tsAt rest (i + 1) s2 w
                (List.mem_of_mem_filter hw)
              omega
            · exact ih (i + 1) s2
    · rw [claimScan_cons_notPending hp]; exact ih (i + 1) store

theorem claimScan_spec (parse : String → Option Payload) (tsAt : Nat → String) :
    ∀ (rows : List SheetRow) (i : Nat) (store : Sheet) (j : Job),
      1 ≤ i → i + rows.length ≤ store.length + 1 →
      (claimScan parse tsAt rows i store).job = some j →
      ∃ n, n < rows.length ∧
        j.row = i + n ∧
        pendingRow (rows.getD n []) ∧
        buildJob j.row (rows.getD n []) parse (tsAt j.row) = some j ∧
        (∀ m, m < n → pendingRow (rows.getD m []) →
          buildJob (i + m) (rows.getD m []) parse (tsAt (i + m)) = none) ∧
        getCell (claimScan parse tsAt rows i store).store j.row 3 = "CLAIMED" ∧
        getCell (claimScan parse tsAt rows i store).store j.row 7 = tsAt j.row := by
  intro rows
  induction rows with
  | nil => intro i store j _ _ h; exact Option.noConfusion h
  | cons r rest ih =>
    intro i store j hi hrange h
    have hi_le : i ≤ store.length := by
      have := List.length_cons r rest
      omega
    by_cases hp : pendingRow r
    · have h1 : updateCell store i 3 "CLAIMED" = some (setCell store i 3 "CLAIMED") :=
        updateCell_some 3 "CLAIMED" hi hi_le
      have hs1len : (setCell store i 3 "CLAIMED").length = store.length :=
        length_setCell store i 3 "CLAIMED"
      have h2 : updateCell (setCell store i 3 "CLAIMED") i 7 (tsAt i)
          = some (setCell (setCell store i 3 "CLAIMED") i 7 (tsAt i)) :=
        updateCell_some 7 (tsAt i) hi (by omega)
      set s1 := setCell store i 3 "CLAIMED" with hs1
      set s2 := setCell s1 i 7 (tsAt i) with hs2
      have hcell3 : getCell s2 i 3 = "CLAIMED" := by
        rw [hs2, getCell_setCell_ne _ hi hi (by omega) (by omega) (Or.inr (by omega)),
          hs1, getCell_setCell_self 3 "CLAIMED" hi hi_le]
      have hcell7 : getCell s2 i 7 = tsAt i := by
        rw [hs2, getCell_setCell_self 7 (tsAt i) hi (by omega)]
      cases hb : buildJob i r parse (tsAt i) with
      | some job =>
        rw [claimScan_cons_found hp h1 h2 hb] at h ⊢
        simp only [Option.some.injEq] at h
        subst h
        have hrow : job.row = i := buildJob_row hb
        refine ⟨0, by simp, by omega, by simpa using hp, ?_, ?_, ?_, ?_⟩
        · rw [hrow]
          simpa using hb
        · intro m hm; omega
        · rw [hrow]
          simpa using hcell3
        · rw [hrow]
          simpa using hcell7
      | none =>
        rw [claimScan_cons_buildFail hp h1 h2 hb] at h ⊢
        simp only [] at h ⊢
        have hrange' : (i + 1) + rest.length ≤ s2.length + 1 := by
          have : s2.length = store.length := by
            rw [hs2, length_setCell, hs1len]
          have hlen := List.length_cons r rest
          omega
        rcases ih (i + 1) s2 j (by omega) hrange' h with
          ⟨n', hn', hrow, hpend, hbuild, hmin, hc3, hc7⟩
        refine ⟨n' + 1, by simp; omega, by omega, ?_, ?_, ?_, hc3, hc7⟩
        · simpa using hpend
        · simpa using hbuild
        · intro m hm hpm
          cases m with
          | zero =>
            simpa using hb
          | succ m' =>
            have : m' < n' := by omega
            have := hmin m' this (by simpa using hpm)
            simpa [Nat.add_assoc, Nat.add_comm 1 m'] using this
    · rw [claimScan_cons_notPending hp] at h ⊢
      have hrange' : (i + 1) + rest.length ≤ store.length + 1 := by
        have := List.length_cons r rest
        omega
      rcases ih (i + 1) store j (by omega) hrange' h with
        ⟨n', hn', hrow, hpend, hbuild, hmin, hc3, hc7⟩
      refine ⟨n' + 1, by simp; omega, by omega, ?_, ?_, ?_, hc3, hc7⟩
      · simpa using hpend
      · simpa using hbuild
      · intro m hm hpm
        cases m with
        | zero => exact absurd (by simpa using hpm) hp
        | succ m' =>
          have : m' < n' := by omega
          have := hmin m' this (by simpa using hpm)
          simpa [Nat.add_assoc, Nat.add_comm 1 m'] using this

theorem claim_store_length (parse : String → Option Payload)
    (tsAt : Nat → String) (store : Sheet) :
    (claim_next_job parse tsAt store).store.length = store.length := by
  unfold claim_next_job
  split
  · rfl
  · exact claimScan_store_length parse tsAt (store.drop 1) 2 store

theorem claim_job_row {parse : String → Option Payload} {tsAt : Nat → String}
    {store : Sheet} {j : Job}
    (h : (claim_next_job parse tsAt store).job = some j) :
    2 ≤ j.row ∧ j.row ≤ store.length := by
  unfold claim_next_job at h
  split at h
  · exact Option.noConfusion h
  · exact claimScan_job_row parse tsAt (store.drop 1) 2 store j h

theorem tsB_ne_empty (n : Nat) : tsB n ≠ "" := by
  intro h
  have hlen := congrArg String.length h
  rw [show tsB n = "TS" ++ toString n from rfl, String.length_append,
    show ("TS" : String).length = 2 from rfl,
    show ("" : String).length = 0 from rfl] at hlen
  omega

/-! ### Claim C2 -/

/-- C2, amended: `claim_next_job` never returns a row that was not
PENDING in the scan snapshot; a returned job is the positionally first
row at or after row 2 that was PENDING at scan time *and whose claim
attempt succeeded* (every earlier PENDING row had its record
construction fail and was skipped after being marked CLAIMED); after
the claim the returned row's status cell holds CLAIMED and its
claimed-timestamp cell is non-empty. -/
theorem claim2_first_claimable_pending (parse : String → Option Payload)
    (tsAt : Nat → String) (store : Sheet) (j : Job)
    (hts : ∀ n, tsAt n ≠ "")
    (h : (claim_next_job parse tsAt store).job = some j) :
    getCell store j.row 3 = "PENDING" ∧
    2 ≤ j.row ∧ j.row ≤ store.length ∧
    getCell (claim_next_job parse tsAt store).store j.row 3 = "CLAIMED" ∧
    getCell (claim_next_job parse tsAt store).store j.row 7 ≠ "" ∧
    (∀ k, 2 ≤ k → k < j.row → getCell store k 3 = "PENDING" →
      buildJob k (store.getD (k - 1) []) parse (tsAt k) = none) := by
  by_cases hlen : store.length ≤ 1
  · rw [claim_next_job, if_pos hlen] at h
    exact Option.noConfusion h
  · rw [claim_next_job, if_neg hlen] at h ⊢
    have hdl : (store.drop 1).length = store.length - 1 := by simp
    have hrange : 2 + (store.drop 1).length ≤ store.length + 1 := by omega
    rcases claimScan_spec parse tsAt (store.drop 1) 2 store j (by omega) hrange h
      with ⟨n, hn, hrow, hpend, hbuild, hmin, hc3, hc7⟩
    have hgetd : ∀ m, (store.drop 1).getD m [] = store.getD (1 + m) [] := by
      intro m
      rw [List.getD_eq_getElem?_getD, List.getElem?_drop,
        ← List.getD_eq_getElem?_getD]
    have hrowm1 : j.row - 1 = 1 + n := by omega
    refine ⟨?_, by omega, by omega, hc3, ?_, ?_⟩
    · show (store.getD (j.row - 1) []).getD 2 "" = "PENDING"
      rw [hrowm1, ← hgetd n]
      exact hpend.2
    · rw [hc7]
      exact hts j.row
    · intro k hk2 hklt hkpend
      have hm : k - 2 < n := by omega
      have hgd : (store.drop 1).getD (k - 2) [] = store.getD (k - 1) [] := by
        rw [hgetd (k - 2)]
        congr 1
        omega
      have hkp' : (store.getD (k - 1) []).getD 2 "" = "PENDING" := hkpend
      have hpk : pendingRow ((store.drop 1).getD (k - 2) []) := by
        rw [hgd]
        refine ⟨?_, hkp'⟩
        by_contra hlen3
        have hdef : (store.getD (k - 1) []).getD 2 "" = "" :=
          List.getD_eq_default _ _ (by omega)
        rw [hdef] at hkp'
        exact absurd hkp' (by simp)
      have hres := hmin (k - 2) hm hpk
      rw [hgd] at hres
      have hke2 : 2 + (k - 2) = k := by omega
      rw [hke2] at hres
      exact hres

/-- C2, counterexample to the claim as stated: in `storeC2` the
positionally first PENDING row at scan time is row 2, but its payload
is malformed, so `claim_next_job` returns the job of row 3 instead. -/
theorem claim2_counterexample :
    ((claim_next_job parse0 tsB storeC2).job.map Job.row) = some 3 ∧
    getCell storeC2 2 3 = "PENDING" ∧ (2 : Nat) ≠ 3 := by decide

/-- C2 witness: a concrete successful claim on a one-job queue. -/
theorem claim2_witness :
    getCell ([hdr11, ["J1", "GENERATE_REPORT", "PENDING", "", "t0", "u@x"]] : Sheet)
      2 3 = "PENDING" ∧
    getCell (claim_next_job parse0 tsB
      [hdr11, ["J1", "GENERATE_REPORT", "PENDING", "", "t0", "u@x"]]).store
      2 3 = "CLAIMED" ∧
    getCell (claim_next_job parse0 tsB
      [hdr11, ["J1", "GENERATE_REPORT", "PENDING", "", "t0", "u@x"]]).store
      2 7 ≠ "" := by
  have h : (claim_next_job parse0 tsB
      [hdr11, ["J1", "GENERATE_REPORT", "PENDING", "", "t0", "u@x"]]).job
      = some ⟨2, "J1", "GENERATE_REPORT", "CLAIMED", [], "t0", "u@x", tsB 2⟩ := by
    decide
  have hc := claim2_first_claimable_pending parse0 tsB
    [hdr11, ["J1", "GENERATE_REPORT", "PENDING", "", "t0", "u@x"]]
    ⟨2, "J1", "GENERATE_REPORT", "CLAIMED", [], "t0", "u@x", tsB 2⟩
    tsB_ne_empty h
  exact ⟨hc.1, hc.2.2.2.1, hc.2.2.2.2.1⟩

/-! ### Claim C1 -/

/-- C1, amended: when the first PENDING row of the queue has a
non-empty payload cell on which the JSON parser fails, `claim_next_job`
still writes CLAIMED and the claimed timestamp into that row, but it
does not return that row's JobRecord with an empty payload: the parse
error is caught and the scan continues past the row, so any job it
returns lies strictly after that row (and the malformed payload is
never replaced by an empty mapping — only a genuinely empty payload
cell yields the empty mapping). -/
theorem claim1_malformed_payload_row_claimed_but_skipped
    (parse : String → Option Payload) (tsAt : Nat → String)
    (hdr rk : SheetRow) (pre rest : List SheetRow) (p : String)
    (hpre : ∀ r ∈ pre, ¬ pendingRow r)
    (hpend : pendingRow rk)
    (hp3 : rk[3]? = some p) (hpne : p ≠ "") (hparse : parse p = none) :
    getCell (claim_next_job parse tsAt (hdr :: pre ++ rk :: rest)).store
        (pre.length + 2) 3 = "CLAIMED" ∧
    getCell (claim_next_job parse tsAt (hdr :: pre ++ rk :: rest)).store
        (pre.length + 2) 7 = tsAt (pre.length + 2) ∧
    (∀ j, (claim_next_job parse tsAt (hdr :: pre ++ rk :: rest)).job = some j →
      pre.length + 2 < j.row) := by
  have hk : pre.length + 2 = 2 + pre.length := by omega
  rw [hk]
  set store := hdr :: pre ++ rk :: rest with hstore
  have hslen : store.length = pre.length + rest.length + 2 := by
    simp [hstore, List.length_cons, List.length_append]
    omega
  have hlen : ¬ store.length ≤ 1 := by omega
  rw [claim_next_job, if_neg hlen]
  have hdrop : store.drop 1 = pre ++ rk :: rest := by
    simp [hstore]
  rw [hdrop, claimScan_skip parse tsAt pre (rk :: rest) 2 store hpre]
  have hkrange : 2 + pre.length ≤ store.length := by omega
  have h1 : updateCell store (2 + pre.length) 3 "CLAIMED"
      = some (setCell store (2 + pre.length) 3 "CLAIMED") :=
    updateCell_some 3 "CLAIMED" (by omega) hkrange
  set s1 := setCell store (2 + pre.length) 3 "CLAIMED" with hs1
  have hs1len : s1.length = store.length := length_setCell store _ 3 "CLAIMED"
  have h2 : updateCell s1 (2 + pre.length) 7 (tsAt (2 + pre.length))
      = some (setCell s1 (2 + pre.length) 7 (tsAt (2 + pre.length))) :=
    updateCell_some 7 _ (by omega) (by omega)
  set s2 := setCell s1 (2 + pre.length) 7 (tsAt (2 + pre.length)) with hs2
  have hbuild : buildJob (2 + pre.length) rk parse (tsAt (2 + pre.length)) = none := by
    simp only [buildJob, hp3, if_neg hpne, hparse]
  rw [claimScan_cons_buildFail hpend h1 h2 hbuild]
  have hcell3 : getCell s2 (2 + pre.length) 3 = "CLAIMED" := by
    rw [hs2, getCell_setCell_ne _ (by omega) (by omega) (by omega) (by omega)
      (Or.inr (by omega)), hs1,
      getCell_setCell_self 3 "CLAIMED" (by omega) hkrange]
  have hcell7 : getCell s2 (2 + pre.length) 7 = tsAt (2 + pre.length) := by
    rw [hs2, getCell_setCell_self 7 _ (by omega) (by omega)]
  refine ⟨?_, ?_, ?_⟩
  · simp only []
    rw [claimScan_frozen parse tsAt rest (2 + pre.length + 1) s2
      (2 + pre.length) 3 (by omega) (by omega) (by omega)]
    exact hcell3
  · simp only []
    rw [claimScan_frozen parse tsAt rest (2 + pre.length + 1) s2
      (2 + pre.length) 7 (by omega) (by omega) (by omega)]
    exact hcell7
  · intro j hj
    simp only [] at hj
    have := claimScan_job_row parse tsAt rest (2 + pre.length + 1) s2 j hj
    omega

/-- C1, counterexample to the claim as stated: on a queue whose only
(and hence first) PENDING row has the non-JSON payload `"notjson"`,
`claim_next_job` returns no JobRecord at all (instead of a JobRecord
with empty payload), even though it wrote CLAIMED and the timestamp
into the row. -/
theorem claim1_counterexample :
    (claim_next_job parse0 tsB storeC1).job = none ∧
    getCell storeC1 2 4 = "notjson" ∧
    getCell (claim_next_job parse0 tsB storeC1).store 2 3 = "CLAIMED" ∧
    getCell (claim_next_job parse0 tsB storeC1).store 2 7 ≠ "" := by decide

/-- C1 witness: the amended theorem applied to the concrete
single-row queue with a malformed payload. -/
theorem claim1_witness :
    getCell (claim_next_job parse0 tsB
      (hdr11 :: [] ++ ["J1", "EXPORT_CSV", "PENDING", "notjson", "2024-01-01", "u@x"] :: [])).store
      2 3 = "CLAIMED" ∧
    getCell (claim_next_job parse0 tsB
      (hdr11 :: [] ++ ["J1", "EXPORT_CSV", "PENDING", "notjson", "2024-01-01", "u@x"] :: [])).store
      2 7 = tsB 2 := by
  have hc := claim1_malformed_payload_row_claimed_but_skipped parse0 tsB hdr11
    ["J1", "EXPORT_CSV", "PENDING", "notjson", "2024-01-01", "u@x"] [] []
    "notjson" (by simp) (by decide) rfl (by decide) rfl
  exact ⟨hc.1, hc.2.1⟩

/-! ### Executor lemmas -/

theorem ujsWEM_eq_write {row : Nat} {s : Sheet} (ws : List CellWrite)
    (m : String) (hm : m ≠ "") (h1 : 1 ≤ row) (h2 : row ≤ s.length) :
    ujsWriteErrorMessage row (some m) s ws
      = ⟨setCell s row 11 (m.take 500), ws ++ [(row, 11, m.take 500)], false⟩ := by
  simp only [ujsWriteErrorMessage, if_neg hm, updateCell_some 11 _ h1 h2]

theorem ujsWEC_eq_write {row : Nat} {s : Sheet} (em : Option String)
    (ws : List CellWrite) (c : String) (hc : c ≠ "")
    (h1 : 1 ≤ row) (h2 : row ≤ s.length) :
    ujsWriteErrorCode row (some c) em s ws
      = ujsWriteErrorMessage row em (setCell s row 10 c) (ws ++ [(row, 10, c)]) := by
  simp only [ujsWriteErrorCode, if_neg hc, updateCell_some 10 _ h1 h2]

theorem ujsWR_eq_write {row : Nat} {s : Sheet} (ec em : Option String)
    (ws : List CellWrite) (r : String) (h1 : 1 ≤ row) (h2 : row ≤ s.length) :
    ujsWriteResult row (some r) ec em s ws
      = ujsWriteErrorCode row ec em (setCell s row 9 (truncResult r))
          (ws ++ [(row, 9, truncResult r)]) := by
  simp only [ujsWriteResult, updateCell_some 9 _ h1 h2]

theorem ujsWEM_spec (row : Nat) (em : Option String) (s : Sheet)
    (ws : List CellWrite) (h1 : 1 ≤ row) (h2 : row ≤ s.length) :
    (ujsWriteErrorMessage row em s ws).raised = false ∧
    (ujsWriteErrorMessage row em s ws).store.length = s.length ∧
    (∀ r' c', 1 ≤ r' → 1 ≤ c' → c' ≠ 11 →
      getCell (ujsWriteErrorMessage row em s ws).store r' c' = getCell s r' c') ∧
    ((ujsWriteErrorMessage row em s ws).writes.filter (fun w => w.2.1 == 8)
      = ws.filter (fun w => w.2.1 == 8)) := by
  cases em with
  | none => exact ⟨rfl, rfl, fun _ _ _ _ _ => rfl, rfl⟩
  | some m =>
    by_cases hm : m = ""
    · subst hm
      exact ⟨rfl, rfl, fun _ _ _ _ _ => rfl, rfl⟩
    · rw [ujsWEM_eq_write ws m hm h1 h2]
      refine ⟨rfl, length_setCell s row 11 _, ?_, ?_⟩
      · intro r' c' hr' hc' hne
        exact getCell_setCell_ne _ h1 hr' (by omega) hc' (Or.inr (by omega))
      · simp only [List.filter_append]
        norm_num

theorem ujsWEC_spec (row : Nat) (ec em : Option String) (s : Sheet)
    (ws : List CellWrite) (h1 : 1 ≤ row) (h2 : row ≤ s.length) :
    (ujsWriteErrorCode row ec em s ws).raised = false ∧
    (ujsWriteErrorCode row ec em s ws).store.length = s.length ∧
    (∀ r' c', 1 ≤ r' → 1 ≤ c' → c' ≠ 10 → c' ≠ 11 →
      getCell (ujsWriteErrorCode row ec em s ws).store r' c' = getCell s r' c') ∧
    ((ujsWriteErrorCode row ec em s ws).writes.filter (fun w => w.2.1 == 8)
      = ws.filter (fun w => w.2.1 == 8)) := by
  cases ec with
  | none =>
    rcases ujsWEM_spec row em s ws h1 h2 with ⟨ha, hb, hmm, hd⟩
    exact ⟨ha, hb, fun r' c' hr' hc' h10 h11 => hmm r' c' hr' hc' h11, hd⟩
  | some c =>
    by_cases hc : c = ""
    · subst hc
      rcases ujsWEM_spec row em s ws h1 h2 with ⟨ha, hb, hmm, hd⟩
      exact ⟨ha, hb, fun r' c' hr' hc' h10 h11 => hmm r' c' hr' hc' h11, hd⟩
    · rw [ujsWEC_eq_write em ws c hc h1 h2]
      have h2' : row ≤ (setCell s row 10 c).length := by
        rw [length_setCell]; exact h2
      rcases ujsWEM_spec row em (setCell s row 10 c) (ws ++ [(row, 10, c)])
        h1 h2' with ⟨ha, hb, hmm, hd⟩
      refine ⟨ha, ?_, ?_, ?_⟩
      · rw [hb, length_setCell]
      · intro r' c' hr' hc' h10 h11
        rw [hmm r' c' hr' hc' h11,
          getCell_setCell_ne _ h1 hr' (by omega) hc' (Or.inr (by omega))]
      · rw [hd]
        simp only [List.filter_append]
        norm_num

theorem ujsWR_spec (row : Nat) (res ec em : Option String) (s : Sheet)
    (ws : List CellWrite) (h1 : 1 ≤ row) (h2 : row ≤ s.length) :
    (ujsWriteResult row res ec em s ws).raised = false ∧
    (ujsWriteResult row res ec em s ws).store.length = s.length ∧
    (∀ r' c', 1 ≤ r' → 1 ≤ c' → c' ≠ 9 → c' ≠ 10 → c' ≠ 11 →
      getCell (ujsWriteResult row res ec em s ws).store r' c' = getCell s r' c') ∧
    ((ujsWriteResult row res ec em s ws).writes.filter (fun w => w.2.1 == 8)
      = ws.filter (fun w => w.2.1 == 8)) := by
  cases res with
  | none =>
    rcases ujsWEC_spec row ec em s ws h1 h2 with ⟨ha, hb, hmm, hd⟩
    exact ⟨ha, hb, fun r' c' hr' hc' h9 h10 h11 => hmm r' c' hr' hc' h10 h11, hd⟩
  | some r =>
    rw [ujsWR_eq_write ec em ws r h1 h2]
    have h2' : row ≤ (setCell s row 9 (truncResult r)).length := by
      rw [length_setCell]; exact h2
    rcases ujsWEC_spec row ec em (setCell s row 9 (truncResult r))
      (ws ++ [(row, 9, truncResult r)]) h1 h2' with ⟨ha, hb, hmm, hd⟩
    refine ⟨ha, ?_, ?_, ?_⟩
    · rw [hb, length_setCell]
    · intro r' c' hr' hc' h9 h10 h11
      rw [hmm r' c' hr' hc' h10 h11,
        getCell_setCell_ne _ h1 hr' (by omega) hc' (Or.inr (by omega))]
    · rw [hd]
      simp only [List.filter_append]
      norm_num

theorem ujs_eq {store : Sheet} {row : Nat} (status : String)
    (res ec em : Option String) (ts : String)
    (h1 : 1 ≤ row) (h2 : row ≤ store.length) :
    update_job_status store row status res ec em ts
      = ujsWriteResult row res ec em
          (setCell (setCell store row 3 status) row 8 ts)
          [(row, 3, status), (row, 8, ts)] := by
  have h2' : row ≤ (setCell store row 3 status).length := by
    rw [length_setCell]; exact h2
  simp only [update_job_status, updateCell_some 3 status h1 h2,
    updateCell_some 8 ts h1 h2']

theorem ujs_out_of_range {store : Sheet} {row : Nat} (status : String)
    (res ec em : Option String) (ts : String)
    (h : ¬ (1 ≤ row ∧ row ≤ store.length)) :
    update_job_status store row status res ec em ts = ⟨store, [], true⟩ := by
  simp only [update_job_status, updateCell_none 3 status h]

theorem ujs_raised_false {store : Sheet} {row : Nat} (status : String)
    (res ec em : Option String) (ts : String)
    (h1 : 1 ≤ row) (h2 : row ≤ store.length) :
    (update_job_status store row status res ec em ts).raised = false := by
  rw [ujs_eq status res ec em ts h1 h2]
  have h2' : row ≤ (setCell (setCell store row 3 status) row 8 ts).length := by
    rw [length_setCell, length_setCell]; exact h2
  exact (ujsWR_spec row res ec em _ _ h1 h2').1

theorem ujs_store_length_of_range {store : Sheet} {row : Nat} (status : String)
    (res ec em : Option String) (ts : String)
    (h1 : 1 ≤ row) (h2 : row ≤ store.length) :
    (update_job_status store row status res ec em ts).store.length
      = store.length := by
  rw [ujs_eq status res ec em ts h1 h2]
  have h2' : row ≤ (setCell (setCell store row 3 status) row 8 ts).length := by
    rw [length_setCell, length_setCell]; exact h2
  rw [(ujsWR_spec row res ec em _ _ h1 h2').2.1, length_setCell, length_setCell]

theorem ujs_cell3 {store : Sheet} {row : Nat} (status : String)
    (res ec em : Option String) (ts : String)
    (h1 : 1 ≤ row) (h2 : row ≤ store.length) :
    getCell (update_job_status store row status res ec em ts).store row 3
      = status := by
  rw [ujs_eq status res ec em ts h1 h2]
  have h2' : row ≤ (setCell (setCell store row 3 status) row 8 ts).length := by
    rw [length_setCell, length_setCell]; exact h2
  rw [(ujsWR_spec row res ec em _ _ h1 h2').2.2.1 row 3 h1 (by omega)
    (by omega) (by omega) (by omega)]
  rw [getCell_setCell_ne _ h1 h1 (by omega) (by omega) (Or.inr (by omega)),
    getCell_setCell_self 3 status h1 h2]

theorem ujs_cell8 {store : Sheet} {row : Nat} (status : String)
    (res ec em : Option String) (ts : String)
    (h1 : 1 ≤ row) (h2 : row ≤ store.length) :
    getCell (update_job_status store row status res ec em ts).store row 8
      = ts := by
  rw [ujs_eq status res ec em ts h1 h2]
  have h2' : row ≤ (setCell (setCell store row 3 status) row 8 ts).length := by
    rw [length_setCell, length_setCell]; exact h2
  rw [(ujsWR_spec row res ec em _ _ h1 h2').2.2.1 row 8 h1 (by omega)
    (by omega) (by omega) (by omega)]
  exact getCell_setCell_self 8 ts h1 (by rw [length_setCell]; exact h2)

theorem ujs_filter8 {store : Sheet} {row : Nat} (status : String)
    (res ec em : Option String) (ts : String)
    (h1 : 1 ≤ row) (h2 : row ≤ store.length) :
    (update_job_status store row status res ec em ts).writes.filter
        (fun w => w.2.1 == 8) = [(row, 8, ts)] := by
  rw [ujs_eq status res ec em ts h1 h2]
  have h2' : row ≤ (setCell (setCell store row 3 status) row 8 ts).length := by
    rw [length_setCell, length_setCell]; exact h2
  rw [(ujsWR_spec row res ec em _ _ h1 h2').2.2.2]
  norm_num

theorem string_length_take (s : String) (n : Nat) :
    (s.take n).length = min n s.length := by
  show (s.take n).data.length = _
  rw [String.data_take, List.length_take]
  rfl

theorem string_take_of_le (s : String) (n : Nat) (h : s.length ≤ n) :
    s.take n = s := by
  apply String.ext
  rw [String.data_take]
  exact List.take_of_length_le h

theorem ujsWEM_cell11 {row : Nat} {s : Sheet} (ws : List CellWrite)
    (m : String) (hm : m ≠ "") (h1 : 1 ≤ row) (h2 : row ≤ s.length) :
    getCell (ujsWriteErrorMessage row (some m) s ws).store row 11
      = m.take 500 := by
  rw [ujsWEM_eq_write ws m hm h1 h2]
  exact getCell_setCell_self 11 _ h1 h2

theorem ujsWEC_cell11 {row : Nat} {s : Sheet} (ec : Option String)
    (ws : List CellWrite) (m : String) (hm : m ≠ "")
    (h1 : 1 ≤ row) (h2 : row ≤ s.length) :
    getCell (ujsWriteErrorCode row ec (some m) s ws).store row 11
      = m.take 500 := by
  cases ec with
  | none => exact ujsWEM_cell11 ws m hm h1 h2
  | some c =>
    by_cases hc : c = ""
    · subst hc
      show getCell (ujsWriteErrorMessage row (some m) s ws).store row 11 = _
      exact ujsWEM_cell11 ws m hm h1 h2
    · rw [ujsWEC_eq_write (some m) ws c hc h1 h2]
      exact ujsWEM_cell11 _ m hm h1 (by rw [length_setCell]; exact h2)

theorem ujsWR_cell11 {row : Nat} {s : Sheet} (res ec : Option String)
    (ws : List CellWrite) (m : String) (hm : m ≠ "")
    (h1 : 1 ≤ row) (h2 : row ≤ s.length) :
    getCell (ujsWriteResult row res ec (some m) s ws).store row 11
      = m.take 500 := by
  cases res with
  | none => exact ujsWEC_cell11 ec ws m hm h1 h2
  | some r =>
    rw [ujsWR_eq_write ec (some m) ws r h1 h2]
    exact ujsWEC_cell11 ec _ m hm h1 (by rw [length_setCell]; exact h2)

theorem ujs_cell11 {store : Sheet} {row : Nat} (status : String)
    (res ec : Option String) (m ts : String) (hm : m ≠ "")
    (h1 : 1 ≤ row) (h2 : row ≤ store.length) :
    getCell (update_job_status store row status res ec (some m) ts).store
      row 11 = m.take 500 := by
  rw [ujs_eq status res ec (some m) ts h1 h2]
  exact ujsWR_cell11 res ec _ m hm h1
    (by rw [length_setCell, length_setCell]; exact h2)

theorem ujsWEC_cell10 {row : Nat} {s : Sheet} (em : Option String)
    (ws : List CellWrite) (c : String) (hc : c ≠ "")
    (h1 : 1 ≤ row) (h2 : row ≤ s.length) :
    getCell (ujsWriteErrorCode row (some c) em s ws).store row 10 = c := by
  rw [ujsWEC_eq_write em ws c hc h1 h2]
  have h2' : row ≤ (setCell s row 10 c).length := by
    rw [length_setCell]; exact h2
  rw [(ujsWEM_spec row em _ _ h1 h2').2.2.1 row 10 h1 (by omega) (by omega)]
  exact getCell_setCell_self 10 c h1 h2

theorem ujsWR_cell10 {row : Nat} {s : Sheet} (res em : Option String)
    (ws : List CellWrite) (c : String) (hc : c ≠ "")
    (h1 : 1 ≤ row) (h2 : row ≤ s.length) :
    getCell (ujsWriteResult row res (some c) em s ws).store row 10 = c := by
  cases res with
  | none => exact ujsWEC_cell10 em ws c hc h1 h2
  | some r =>
    rw [ujsWR_eq_write (some c) em ws r h1 h2]
    exact ujsWEC_cell10 em _ c hc h1 (by rw [length_setCell]; exact h2)

theorem ujs_cell10 {store : Sheet} {row : Nat} (status : String)
    (res em : Option String) (c ts : String) (hc : c ≠ "")
    (h1 : 1 ≤ row) (h2 : row ≤ store.length) :
    getCell (update_job_status store row status res (some c) em ts).store
      row 10 = c := by
  rw [ujs_eq status res (some c) em ts h1 h2]
  exact ujsWR_cell10 res em _ c hc h1
    (by rw [length_setCell, length_setCell]; exact h2)

theorem ujs_cell9 {store : Sheet} {row : Nat} (status : String)
    (ec em : Option String) (r ts : String)
    (h1 : 1 ≤ row) (h2 : row ≤ store.length) :
    getCell (update_job_status store row status (some r) ec em ts).store
      row 9 = truncResult r := by
  rw [ujs_eq status (some r) ec em ts h1 h2]
  have h2' : row ≤ (setCell (setCell store row 3 status) row 8 ts).length := by
    rw [length_setCell, length_setCell]; exact h2
  rw [ujsWR_eq_write ec em _ r h1 h2']
  have h2'' : row ≤ (setCell (setCell (setCell store row 3 status) row 8 ts)
      row 9 (truncResult r)).length := by
    rw [length_setCell]; exact h2'
  rw [(ujsWEC_spec row ec em _ _ h1 h2'').2.2.1 row 9 h1 (by omega)
    (by omega) (by omega)]
  exact getCell_setCell_self 9 _ h1 h2'

theorem ujsWEM_writes_sub (row : Nat) (em : Option String) (s : Sheet)
    (ws : List CellWrite) :
    ∀ w ∈ (ujsWriteErrorMessage row em s ws).writes,
      w ∈ ws ∨ w.2.1 = 11 := by
  intro w hw
  unfold ujsWriteErrorMessage at hw
  split at hw
  · exact Or.inl hw
  · split at hw
    · exact Or.inl hw
    · split at hw
      · exact Or.inl hw
      · simp only [List.mem_append, List.mem_singleton] at hw
        rcases hw with hw | hw
        · exact Or.inl hw
        · subst hw; exact Or.inr rfl

theorem ujsWEC_writes_sub (row : Nat) (ec em : Option String) (s : Sheet)
    (ws : List CellWrite) :
    ∀ w ∈ (ujsWriteErrorCode row ec em s ws).writes,
      w ∈ ws ∨ w.2.1 = 10 ∨ w.2.1 = 11 := by
  intro w hw
  unfold ujsWriteErrorCode at hw
  split at hw
  · rcases ujsWEM_writes_sub row em s ws w hw with h | h
    · exact Or.inl h
    · exact Or.inr (Or.inr h)
  · split at hw
    · rcases ujsWEM_writes_sub row em s ws w hw with h | h
      · exact Or.inl h
      · exact Or.inr (Or.inr h)
    · split at hw
      · exact Or.inl hw
      · rcases ujsWEM_writes_sub row em _ _ w hw with h | h
        · simp only [List.mem_append, List.mem_singleton] at h
          rcases h with h | h
          · exact Or.inl h
          · subst h; exact Or.inr (Or.inl rfl)
        · exact Or.inr (Or.inr h)

theorem ujsWR_writes_sub (row : Nat) (res ec em : Option String) (s : Sheet)
    (ws : List CellWrite) :
    ∀ w ∈ (ujsWriteResult row res ec em s ws).writes,
      w ∈ ws ∨ w.2.1 = 9 ∨ w.2.1 = 10 ∨ w.2.1 = 11 := by
  intro w hw
  unfold ujsWriteResult at hw
  split at hw
  · rcases ujsWEC_writes_sub row ec em s ws w hw with h | h | h
    · exact Or.inl h
    · exact Or.inr (Or.inr (Or.inl h))
    · exact Or.inr (Or.inr (Or.inr h))
  · split at hw
    · exact Or.inl hw
    · rcases ujsWEC_writes_sub row ec em _ _ w hw with h | h | h
      · simp only [List.mem_append, List.mem_singleton] at h
        rcases h with h | h
        · exact Or.inl h
        · subst h; exact Or.inr (Or.inl rfl)
      · exact Or.inr (Or.inr (Or.inl h))
      · exact Or.inr (Or.inr (Or.inr h))

theorem ujs_writes_cols (store : Sheet) (row : Nat) (status : String)
    (res ec em : Option String) (ts : String) :
    ∀ w ∈ (update_job_status store row status res ec em ts).writes,
      w.2.1 = 3 ∨ w.2.1 = 8 ∨ w.2.1 = 9 ∨ w.2.1 = 10 ∨ w.2.1 = 11 := by
  intro w hw
  unfold update_job_status at hw
  split at hw
  · simp at hw
  · split at hw
    · simp only [List.mem_singleton] at hw
      subst hw; exact Or.inl rfl
    · rcases ujsWR_writes_sub row res ec em _ _ w hw with h | h | h | h
      · simp only [List.mem_cons, List.mem_singleton] at h
        rcases h with h | h | h
        · subst h; exact Or.inl rfl
        · subst h; exact Or.inr (Or.inl rfl)
        · simp at h
      · exact Or.inr (Or.inr (Or.inl h))
      · exact Or.inr (Or.inr (Or.inr (Or.inl h)))
      · exact Or.inr (Or.inr (Or.inr (Or.inr h)))

/-! ### process_job characterization -/

theorem process_job_eq_ok {env : Env} {job : Job} {ts1 ts2 ts3 : String}
    {store : Sheet} {res : String}
    (h1 : 1 ≤ job.row) (h2 : job.row ≤ store.length)
    (hd : dispatch env job.jobName job.payload = .ok res) :
    process_job env job ts1 ts2 ts3 store =
      ⟨(update_job_status
          (update_job_status store job.row "RUNNING" none none none ts1).store
          job.row "COMPLETED" (some res) none none ts2).store,
       (update_job_status store job.row "RUNNING" none none none ts1).writes
         ++ (update_job_status
          (update_job_status store job.row "RUNNING" none none none ts1).store
          job.row "COMPLETED" (some res) none none ts2).writes,
       false⟩ := by
  have hr1 : (update_job_status store job.row "RUNNING" none none none ts1).raised
      = false := ujs_raised_false _ _ _ _ _ h1 h2
  have h2' : job.row ≤ (update_job_status store job.row "RUNNING"
      none none none ts1).store.length := by
    rw [ujs_store_length_of_range _ _ _ _ _ h1 h2]; exact h2
  have hr2 : (update_job_status
      (update_job_status store job.row "RUNNING" none none none ts1).store
      job.row "COMPLETED" (some res) none none ts2).raised = false :=
    ujs_raised_false _ _ _ _ _ h1 h2'
  simp only [process_job, hr1, hd, hr2, Bool.false_eq_true, if_false]

theorem process_job_eq_err {env : Env} {job : Job} {ts1 ts2 ts3 : String}
    {store : Sheet} {e : PyErr}
    (h1 : 1 ≤ job.row) (h2 : job.row ≤ store.length)
    (hd : dispatch env job.jobName job.payload = .error e) :
    process_job env job ts1 ts2 ts3 store =
      ⟨(update_job_status
          (update_job_status store job.row "RUNNING" none none none ts1).store
          job.row "FAILED" none (some e.1) (some e.2) ts2).store,
       (update_job_status store job.row "RUNNING" none none none ts1).writes
         ++ (update_job_status
          (update_job_status store job.row "RUNNING" none none none ts1).store
          job.row "FAILED" none (some e.1) (some e.2) ts2).writes,
       (update_job_status
          (update_job_status store job.row "RUNNING" none none none ts1).store
          job.row "FAILED" none (some e.1) (some e.2) ts2).raised⟩ := by
  have hr1 : (update_job_status store job.row "RUNNING" none none none ts1).raised
      = false := ujs_raised_false _ _ _ _ _ h1 h2
  simp only [process_job, hr1, hd, Bool.false_eq_true, if_false]

theorem process_job_oob {env : Env} {job : Job} {ts1 ts2 ts3 : String}
    {store : Sheet} (h : ¬ (1 ≤ job.row ∧ job.row ≤ store.length)) :
    process_job env job ts1 ts2 ts3 store = ⟨store, [], true⟩ := by
  have hr1 : update_job_status store job.row "RUNNING" none none none ts1
      = ⟨store, [], true⟩ := ujs_out_of_range _ _ _ _ _ h
  have hr2 : update_job_status store job.row "FAILED" none (some storeErrCode)
      (some storeErrMsg) ts2 = ⟨store, [], true⟩ := ujs_out_of_range _ _ _ _ _ h
  simp only [process_job, hr1, hr2]
  rfl

theorem process_raised_false {env : Env} {job : Job} {ts1 ts2 ts3 : String}
    {store : Sheet} (h1 : 1 ≤ job.row) (h2 : job.row ≤ store.length) :
    (process_job env job ts1 ts2 ts3 store).raised = false := by
  cases hd : dispatch env job.jobName job.payload with
  | ok res => rw [process_job_eq_ok h1 h2 hd]
  | error e =>
    rw [process_job_eq_err h1 h2 hd]
    have h2' : job.row ≤ (update_job_status store job.row "RUNNING"
        none none none ts1).store.length := by
      rw [ujs_store_length_of_range _ _ _ _ _ h1 h2]; exact h2
    exact ujs_raised_false _ _ _ _ _ h1 h2'

theorem process_store_length {env : Env} {job : Job} {ts1 ts2 ts3 : String}
    {store : Sheet} (h1 : 1 ≤ job.row) (h2 : job.row ≤ store.length) :
    (process_job env job ts1 ts2 ts3 store).store.length = store.length := by
  have h2' : job.row ≤ (update_job_status store job.row "RUNNING"
      none none none ts1).store.length := by
    rw [ujs_store_length_of_range _ _ _ _ _ h1 h2]; exact h2
  cases hd : dispatch env job.jobName job.payload with
  | ok res =>
    rw [process_job_eq_ok h1 h2 hd]
    simp only []
    rw [ujs_store_length_of_range _ _ _ _ _ h1 h2',
      ujs_store_length_of_range _ _ _ _ _ h1 h2]
  | error e =>
    rw [process_job_eq_err h1 h2 hd]
    simp only []
    rw [ujs_store_length_of_range _ _ _ _ _ h1 h2',
      ujs_store_length_of_range _ _ _ _ _ h1 h2]

theorem process_writes_cols (env : Env) (job : Job) (ts1 ts2 ts3 : String)
    (store : Sheet) :
    ∀ w ∈ (process_job env job ts1 ts2 ts3 store).writes,
      w.2.1 = 3 ∨ w.2.1 = 8 ∨ w.2.1 = 9 ∨ w.2.1 = 10 ∨ w.2.1 = 11 := by
  intro w hw
  by_cases hr : 1 ≤ job.row ∧ job.row ≤ store.length
  · cases hd : dispatch env job.jobName job.payload with
    | ok res =>
      rw [process_job_eq_ok hr.1 hr.2 hd] at hw
      simp only [List.mem_append] at hw
      rcases hw with hw | hw <;> exact ujs_writes_cols _ _ _ _ _ _ _ w hw
    | error e =>
      rw [process_job_eq_err hr.1 hr.2 hd] at hw
      simp only [List.mem_append] at hw
      rcases hw with hw | hw <;> exact ujs_writes_cols _ _ _ _ _ _ _ w hw
  · rw [process_job_oob hr] at hw
    simp at hw

/-! ### Claim C3 -/

/-- C3: whenever `process_job` returns without raising, the job's
status cell holds COMPLETED or FAILED, and never CLAIMED or RUNNING,
for every handler environment and hence regardless of whether the
dispatched handler succeeds or raises. -/
theorem claim3_terminal_status (env : Env) (job : Job) (ts1 ts2 ts3 : String)
    (store : Sheet)
    (h : (process_job env job ts1 ts2 ts3 store).raised = false) :
    (getCell (process_job env job ts1 ts2 ts3 store).store job.row 3 = "COMPLETED"
      ∨ getCell (process_job env job ts1 ts2 ts3 store).store job.row 3 = "FAILED") ∧
    getCell (process_job env job ts1 ts2 ts3 store).store job.row 3 ≠ "CLAIMED" ∧
    getCell (process_job env job ts1 ts2 ts3 store).store job.row 3 ≠ "RUNNING" := by
  by_cases hr : 1 ≤ job.row ∧ job.row ≤ store.length
  · have h2' : job.row ≤ (update_job_status store job.row "RUNNING"
        none none none ts1).store.length := by
      rw [ujs_store_length_of_range _ _ _ _ _ hr.1 hr.2]; exact hr.2
    cases hd : dispatch env job.jobName job.payload with
    | ok res =>
      rw [process_job_eq_ok hr.1 hr.2 hd]
      simp only []
      rw [ujs_cell3 _ _ _ _ _ hr.1 h2']
      exact ⟨Or.inl rfl, by decide, by decide⟩
    | error e =>
      rw [process_job_eq_err hr.1 hr.2 hd]
      simp only []
      rw [ujs_cell3 _ _ _ _ _ hr.1 h2']
      exact ⟨Or.inr rfl, by decide, by decide⟩
  · rw [process_job_oob hr] at h
    simp at h

/-- C3 witness: a concrete cycle with a registered handler. -/
theorem claim3_witness :
    (process_job env0 jobC3 "T1" "T2" "T3" storeC3).raised = false ∧
    (getCell (process_job env0 jobC3 "T1" "T2" "T3" storeC3).store 2 3 = "COMPLETED"
      ∨ getCell (process_job env0 jobC3 "T1" "T2" "T3" storeC3).store 2 3 = "FAILED") := by
  have h : (process_job env0 jobC3 "T1" "T2" "T3" storeC3).raised = false := by decide
  exact ⟨h, (claim3_terminal_status env0 jobC3 "T1" "T2" "T3" storeC3 h).1⟩

/-! ### Claim C8 -/

/-- C8: a serialized handler result longer than 500 characters is
stored as its first 497 characters plus the three-character ellipsis
(500 characters total); an error message longer than 500 characters is
stored as exactly its first 500 characters; shorter values are stored
unmodified. -/
theorem claim8_truncation (store : Sheet) (row : Nat) (status : String)
    (res ec em : Option String) (ts : String)
    (h1 : 1 ≤ row) (h2 : row ≤ store.length) :
    (∀ r : String, 500 < r.length →
      getCell (update_job_status store row status (some r) ec em ts).store row 9
          = r.take 497 ++ "..." ∧
        (r.take 497 ++ "...").length = 500) ∧
    (∀ r : String, r.length ≤ 500 →
      getCell (update_job_status store row status (some r) ec em ts).store row 9
        = r) ∧
    (∀ m : String, 500 < m.length →
      getCell (update_job_status store row status res ec (some m) ts).store row 11
          = m.take 500 ∧
        (m.take 500).length = 500) ∧
    (∀ m : String, m ≠ "" → m.length ≤ 500 →
      getCell (update_job_status store row status res ec (some m) ts).store row 11
        = m) := by
  refine ⟨?_, ?_, ?_, ?_⟩
  · intro r hlen
    constructor
    · rw [ujs_cell9 _ _ _ _ _ h1 h2, truncResult, if_pos hlen]
    · rw [String.length_append, string_length_take,
        show ("..." : String).length = 3 from rfl]
      omega
  · intro r hlen
    rw [ujs_cell9 _ _ _ _ _ h1 h2, truncResult, if_neg (by omega)]
  · intro m hlen
    have hm : m ≠ "" := by
      intro hq
      rw [hq, show ("" : String).length = 0 from rfl] at hlen
      omega
    constructor
    · rw [ujs_cell11 _ _ _ _ _ hm h1 h2]
    · rw [string_length_take]
      omega
  · intro m hm hlen
    rw [ujs_cell11 _ _ _ _ _ hm h1 h2, string_take_of_le m 500 hlen]

/-- C8 witness: the truncation behaviour at concrete 501-character
result and message strings on a concrete queue row. -/
theorem claim8_witness :
    getCell (update_job_status storeC3 2 "COMPLETED" (some longA) none none "T").store
        2 9 = longA.take 497 ++ "..." ∧
    (longA.take 497 ++ "...").length = 500 ∧
    getCell (update_job_status storeC3 2 "FAILED" none none (some longB) "T").store
        2 11 = longB.take 500 ∧
    (longB.take 500).length = 500 := by
  have hA : longA.length = 501 := by
    show (List.replicate 501 'a').length = 501
    rw [List.length_replicate]
  have hB : longB.length = 501 := by
    show (List.replicate 501 'b').length = 501
    rw [List.length_replicate]
  have hlen2 : (2 : Nat) ≤ storeC3.length := by decide
  have h9 := (claim8_truncation storeC3 2 "COMPLETED" none none none "T"
    (by omega) hlen2).1 longA (by omega)
  have h11 := (claim8_truncation storeC3 2 "FAILED" none none none "T"
    (by omega) hlen2).2.2.1 longB (by omega)
  exact ⟨h9.1, h9.2, h11.1, h11.2⟩

/-! ### Claim C9 -/

/-- C9: a claimed job whose name is not one of the four registered
handlers invokes no handler — the run is identical for every handler
environment — and is finalized FAILED with errorCode `ValueError` (the
type of the unknown-job exception) and an errorMessage
`Job desconhecido: <name>` mentioning the unrecognized name (stored in
full whenever the name fits the 500-character message cap). -/
theorem claim9_unknown_job_failed (env env' : Env) (job : Job)
    (ts1 ts2 ts3 : String) (store : Sheet)
    (h1 : 1 ≤ job.row) (h2 : job.row ≤ store.length)
    (hn1 : job.jobName ≠ "EXPORT_CSV") (hn2 : job.jobName ≠ "BATCH_CLEANUP")
    (hn3 : job.jobName ≠ "GENERATE_REPORT")
    (hn4 : job.jobName ≠ "CALCULATE_STATS") :
    process_job env job ts1 ts2 ts3 store
      = process_job env' job ts1 ts2 ts3 store ∧
    getCell (process_job env job ts1 ts2 ts3 store).store job.row 3 = "FAILED" ∧
    getCell (process_job env job ts1 ts2 ts3 store).store job.row 10
      = "ValueError" ∧
    getCell (process_job env job ts1 ts2 ts3 store).store job.row 11
      = ("Job desconhecido: " ++ job.jobName).take 500 ∧
    (job.jobName.length ≤ 482 →
      getCell (process_job env job ts1 ts2 ts3 store).store job.row 11
        = "Job desconhecido: " ++ job.jobName) := by
  have hd : ∀ envx : Env, dispatch envx job.jobName job.payload
      = .error ("ValueError", "Job desconhecido: " ++ job.jobName) := by
    intro envx
    simp only [dispatch, if_neg hn1, if_neg hn2, if_neg hn3, if_neg hn4]
  have h2' : job.row ≤ (update_job_status store job.row "RUNNING"
      none none none ts1).store.length := by
    rw [ujs_store_length_of_range _ _ _ _ _ h1 h2]; exact h2
  have hmsg_ne : ("Job desconhecido: " ++ job.jobName) ≠ "" := by
    intro hcontra
    have hlen := congrArg String.length hcontra
    rw [String.length_append,
      show ("Job desconhecido: " : String).length = 18 from rfl,
      show ("" : String).length = 0 from rfl] at hlen
    omega
  have hcell11 : getCell (process_job env job ts1 ts2 ts3 store).store job.row 11
      = ("Job desconhecido: " ++ job.jobName).take 500 := by
    rw [process_job_eq_err h1 h2 (hd env)]
    simp only []
    exact ujs_cell11 _ _ _ _ _ hmsg_ne h1 h2'
  refine ⟨?_, ?_, ?_, hcell11, ?_⟩
  · rw [process_job_eq_err h1 h2 (hd env), process_job_eq_err h1 h2 (hd env')]
  · rw [process_job_eq_err h1 h2 (hd env)]
    simp only []
    exact ujs_cell3 _ _ _ _ _ h1 h2'
  · rw [process_job_eq_err h1 h2 (hd env)]
    simp only []
    exact ujs_cell10 _ _ _ _ _ (by decide) h1 h2'
  · intro hshort
    rw [hcell11, string_take_of_le]
    rw [String.length_append,
      show ("Job desconhecido: " : String).length = 18 from rfl]
    omega

/-- C9 witness: the spec scenario `jobName = "UNKNOWN_X"` run
concretely. -/
theorem claim9_witness :
    getCell (process_job env0 jobC9 "T1" "T2" "T3" storeC9).store 2 3 = "FAILED" ∧
    getCell (process_job env0 jobC9 "T1" "T2" "T3" storeC9).store 2 10
      = "ValueError" ∧
    getCell (process_job env0 jobC9 "T1" "T2" "T3" storeC9).store 2 11
      = "Job desconhecido: " ++ "UNKNOWN_X" := by
  have hc := claim9_unknown_job_failed env0 env0 jobC9 "T1" "T2" "T3" storeC9
    (by decide) (by decide) (by decide) (by decide) (by decide) (by decide)
  exact ⟨hc.2.1, hc.2.2.1, hc.2.2.2.2 (by decide)⟩

/-! ### Claim C4 -/

/-- C4, amended: over a claim-then-process cycle the
timestamp_enqueued column (5) is never written at all; the
claimed-timestamp column (7) is written by the claim at pairwise
distinct rows (at most once per row) and never by the executor; but
the completed-timestamp column (8) is written by every
`update_job_status` call — exactly twice per processed job (at the
RUNNING write and at the terminal write), the second write landing on
the same cell as the first, so that cell is overwritten rather than
written once. -/
theorem claim4_timestamp_writes :
    (∀ (parse : String → Option Payload) (tsAt : Nat → String) (store : Sheet)
        (w : CellWrite), w ∈ (claim_next_job parse tsAt store).writes →
        w.2.1 = 3 ∨ w.2.1 = 7) ∧
    (∀ (parse : String → Option Payload) (tsAt : Nat → String) (store : Sheet),
      List.Pairwise (· < ·) (((claim_next_job parse tsAt store).writes.filter
        (fun w => w.2.1 == 7)).map (fun w => w.1))) ∧
    (∀ (env : Env) (job : Job) (ts1 ts2 ts3 : String) (store : Sheet)
        (w : CellWrite), w ∈ (process_job env job ts1 ts2 ts3 store).writes →
        w.2.1 ≠ 5 ∧ w.2.1 ≠ 7) ∧
    (∀ (env : Env) (job : Job) (ts1 ts2 ts3 : String) (store : Sheet),
      (process_job env job ts1 ts2 ts3 store).raised = false →
      (process_job env job ts1 ts2 ts3 store).writes.filter (fun w => w.2.1 == 8)
        = [(job.row, 8, ts1), (job.row, 8, ts2)]) := by
  refine ⟨?_, ?_, ?_, ?_⟩
  · intro parse tsAt store w hw
    unfold claim_next_job at hw
    split at hw
    · simp at hw
    · exact claimScan_writes_cols parse tsAt (store.drop 1) 2 store w hw
  · intro parse tsAt store
    unfold claim_next_job
    split
    · simp
    · exact claimScan_filter7_pairwise parse tsAt (store.drop 1) 2 store
  · intro env job ts1 ts2 ts3 store w hw
    rcases process_writes_cols env job ts1 ts2 ts3 store w hw with
      h | h | h | h | h <;> omega
  · intro env job ts1 ts2 ts3 store hraised
    by_cases hr : 1 ≤ job.row ∧ job.row ≤ store.length
    · have h2' : job.row ≤ (update_job_status store job.row "RUNNING"
          none none none ts1).store.length := by
        rw [ujs_store_length_of_range _ _ _ _ _ hr.1 hr.2]; exact hr.2
      cases hd : dispatch env job.jobName job.payload with
      | ok res =>
        rw [process_job_eq_ok hr.1 hr.2 hd]
        simp only [List.filter_append]
        rw [ujs_filter8 _ _ _ _ _ hr.1 hr.2, ujs_filter8 _ _ _ _ _ hr.1 h2']
        rfl
      | error e =>
        rw [process_job_eq_err hr.1 hr.2 hd]
        simp only [List.filter_append]
        rw [ujs_filter8 _ _ _ _ _ hr.1 hr.2, ujs_filter8 _ _ _ _ _ hr.1 h2']
        rfl
    · rw [process_job_oob hr] at hraised
      simp at hraised

/-- C4, counterexample to the claim as stated: a full claim-then-
process cycle on a one-job queue performs two writes, with different
timestamps, to the same timestamp_completed cell (row 2, column 8) —
one at the RUNNING transition and one at the terminal transition — so
that timestamp cell is written twice and overwritten. -/
theorem claim4_counterexample :
    (((claim_next_job parse0 tsB storeC4).writes
      ++ (process_job env0
          ((claim_next_job parse0 tsB storeC4).job.getD defaultJob)
          "T1" "T2" "T3" (claim_next_job parse0 tsB storeC4).store).writes).filter
        (fun w => w.2.1 == 8))
      = [(2, 8, "T1"), (2, 8, "T2")] ∧ ("T1" : String) ≠ "T2" := by decide

/-- C4 witness: the amended theorem's two-writes clause at a concrete
processed job. -/
theorem claim4_witness :
    (process_job env0 jobC9 "T1" "T2" "T3" storeC9).writes.filter
        (fun w => w.2.1 == 8)
      = [(2, 8, "T1"), (2, 8, "T2")] := by
  have h : (process_job env0 jobC9 "T1" "T2" "T3" storeC9).raised = false := by
    decide
  exact claim4_timestamp_writes.2.2.2 env0 jobC9 "T1" "T2" "T3" storeC9 h

/-! ### Processor-loop lemmas -/

theorem loop_body_no_stop (parse : String → Option Payload) (env : Env)
    (tsAt : Nat → Nat → String) (autoStop : Option Nat) (it idle : Nat)
    (store : Sheet) (hauto : truthy autoStop = false) :
    ∃ idle' s', loop_body parse env tsAt autoStop it idle store
      = .cont idle' s' := by
  cases hc : (claim_next_job parse (tsAt it) store).job with
  | some job =>
    have hr := claim_job_row hc
    have hlen := claim_store_length parse (tsAt it) store
    have h2 : job.row ≤ (claim_next_job parse (tsAt it) store).store.length := by
      rw [hlen]; exact hr.2
    have hpr : (process_job env job (tsAt it 0) (tsAt it 1) (tsAt it 2)
        (claim_next_job parse (tsAt it) store).store).raised = false :=
      process_raised_false (by omega) h2
    exact ⟨0, (process_job env job (tsAt it 0) (tsAt it 1) (tsAt it 2)
        (claim_next_job parse (tsAt it) store).store).store,
      by simp only [loop_body, hc, hpr, Bool.false_eq_true, if_false]⟩
  | none =>
    have hcond : ¬ (truthy autoStop = true ∧ 10 ≤ idle + 1) := by
      rw [hauto]; simp
    exact ⟨idle + 1, (claim_next_job parse (tsAt it) store).store,
      by simp only [loop_body, hc, if_neg hcond]⟩

theorem processor_go_max_iter (parse : String → Option Payload) (env : Env)
    (tsAt : Nat → Nat → String) (elapsedAt : Nat → ℚ) (runAt : Nat → Bool)
    (autoStop : Option Nat) (N : Nat)
    (hauto : truthy autoStop = false) (hrun : ∀ n, runAt n = true)
    (hN : 1 ≤ N) :
    ∀ (k it idle br : Nat) (store : Sheet), it + k = N →
      ∃ s, processor_go parse env tsAt elapsedAt runAt (some N) autoStop
        (k + 1) it idle br store = some ⟨br + k, s, false⟩ := by
  intro k
  induction k with
  | zero =>
    intro it idle br store hit
    have hcond1 : ¬ (runAt it = false) := by rw [hrun it]; simp
    have htru : truthy (some N) = true := by
      simp only [truthy, bne_iff_ne, ne_eq, decide_eq_true_eq]
      omega
    refine ⟨store, ?_⟩
    simp only [processor_go]
    rw [if_neg hcond1,
      if_pos ⟨htru, by simp only [Option.getD_some]; omega⟩]
    simp

  | succ k ihk =>
    intro it idle br store hit
    rcases loop_body_no_stop parse env tsAt autoStop (it + 1) idle store hauto
      with ⟨idle', s', hbody⟩
    rcases ihk (it + 1) idle' (br + 1) s' (by omega) with ⟨s, hs⟩
    refine ⟨s, ?_⟩
    have hcond1 : ¬ (runAt it = false) := by rw [hrun it]; simp
    have hcond2 : ¬ (truthy (some N) = true ∧ (some N).getD 0 < it + 1) := by
      intro hcontra
      have := hcontra.2
      simp only [Option.getD_some] at this
      omega
    have hcond3 : ¬ (truthy autoStop = true ∧
        (autoStop.getD 0 : ℚ) ≤ elapsedAt (it + 1)) := by
      rw [hauto]; simp
    simp only [processor_go]
    rw [if_neg hcond1, if_neg hcond2, if_neg hcond3, hbody]
    have harith : br + 1 + k = br + (k + 1) := by omega
    rw [harith] at hs
    exact hs

theorem processor_go_idle_stop (parse : String → Option Payload) (env : Env)
    (tsAt : Nat → Nat → String) (elapsedAt : Nat → ℚ) (runAt : Nat → Bool)
    (maxIter autoStop : Option Nat) (store : Sheet)
    (hauto : truthy autoStop = true)
    (hfix : ∀ tf : Nat → String, claim_next_job parse tf store
      = ⟨none, store, []⟩) :
    ∀ (fuel idle : Nat), idle ≤ 9 → 10 - idle ≤ fuel →
      ∀ (it br : Nat),
      (processor_go parse env tsAt elapsedAt runAt maxIter autoStop
        fuel it idle br store).isSome = true := by
  intro fuel
  induction fuel with
  | zero => intro idle h9 hge it br; omega
  | succ fuel ih =>
    intro idle h9 hge it br
    simp only [processor_go]
    by_cases hr : runAt it = false
    · rw [if_pos hr]; rfl
    · rw [if_neg hr]
      by_cases hm : truthy maxIter = true ∧ maxIter.getD 0 < it + 1
      · rw [if_pos hm]; rfl
      · rw [if_neg hm]
        by_cases ht : truthy autoStop = true ∧
            (autoStop.getD 0 : ℚ) ≤ elapsedAt (it + 1)
        · rw [if_pos ht]; rfl
        · rw [if_neg ht]
          have hbody : loop_body parse env tsAt autoStop (it + 1) idle store
              = (if truthy autoStop = true ∧ 10 ≤ idle + 1
                 then StepRes.stop store else StepRes.cont (idle + 1) store) := by
            simp only [loop_body, hfix (tsAt (it + 1))]
          by_cases hidle : 10 ≤ idle + 1
          · rw [hbody, if_pos ⟨hauto, hidle⟩]; rfl
          · rw [hbody, if_neg (fun hcontra => hidle hcontra.2)]
            exact ih (idle + 1) (by omega) (by omega) (it + 1) (br + 1)

theorem processor_go_no_idle_stop (parse : String → Option Payload) (env : Env)
    (tsAt : Nat → Nat → String) (elapsedAt : Nat → ℚ) (runAt : Nat → Bool)
    (maxIter autoStop : Option Nat) (store : Sheet)
    (hm : truthy maxIter = false) (hauto : truthy autoStop = false)
    (hrun : ∀ n, runAt n = true)
    (hfix : ∀ tf : Nat → String, claim_next_job parse tf store
      = ⟨none, store, []⟩) :
    ∀ (fuel it idle br : Nat),
      processor_go parse env tsAt elapsedAt runAt maxIter autoStop
        fuel it idle br store = none := by
  intro fuel
  induction fuel with
  | zero => intro it idle br; rfl
  | succ fuel ih =>
    intro it idle br
    simp only [processor_go]
    rw [if_neg (show ¬ (runAt it = false) by rw [hrun it]; simp)]
    rw [if_neg (show ¬ (truthy maxIter = true ∧ maxIter.getD 0 < it + 1) by
      rw [hm]; simp)]
    rw [if_neg (show ¬ (truthy autoStop = true ∧
        (autoStop.getD 0 : ℚ) ≤ elapsedAt (it + 1)) by rw [hauto]; simp)]
    have hbody : loop_body parse env tsAt autoStop (it + 1) idle store
        = .cont (idle + 1) store := by
      simp only [loop_body, hfix (tsAt (it + 1))]
      rw [if_neg (show ¬ (truthy autoStop = true ∧ 10 ≤ idle + 1) by
        rw [hauto]; simp)]
    rw [hbody]
    exact ih (it + 1) (idle + 1) (br + 1)

/-! ### Claim C5 -/

/-- C5, amended: when `auto_stop_minutes` is not configured (falsy) and
the running flag is never externally cleared, the loop configured with
`max_iterations = N ≥ 1` executes the claim/process body exactly `N`
times on every queue and then stops, with the running flag cleared; a
configured auto-stop can stop the loop earlier (see the
counterexample). -/
theorem claim5_max_iterations (parse : String → Option Payload) (env : Env)
    (tsAt : Nat → Nat → String) (elapsedAt : Nat → ℚ) (runAt : Nat → Bool)
    (autoStop : Option Nat) (N : Nat) (store : Sheet)
    (hauto : truthy autoStop = false) (hrun : ∀ n, runAt n = true)
    (hN : 1 ≤ N) :
    (processor_go parse env tsAt elapsedAt runAt (some N) autoStop
        (N + 1) 0 0 0 store).map
      (fun e => (e.bodyRuns, e.running_after)) = some (N, false) := by
  rcases processor_go_max_iter parse env tsAt elapsedAt runAt autoStop N
    hauto hrun hN N 0 0 0 store (by omega) with ⟨s, hs⟩
  rw [hs]
  simp

/-- C5, counterexample to the claim as stated: with
`max_iterations = 11` configured and `auto_stop_minutes = 30` (the
default used by `start_processor_background` and `/activate`), an
empty queue stops the loop after only 10 body iterations — the
consecutive-idle auto-stop fires first — not after 11. -/
theorem claim5_counterexample :
    processor_go parse0 env0 tsB2 (fun _ => (0 : ℚ)) (fun _ => true)
        (some 11) (some 30) 12 0 0 0 [hdr11]
      = some ⟨10, [hdr11], false⟩ ∧ (10 : Nat) ≠ 11 := by
  refine ⟨by decide, by decide⟩

/-- C5 witness: three iterations with `max_iterations = 3`-style
configuration (`N = 2` here) and no auto-stop on an empty queue. -/
theorem claim5_witness :
    (processor_go parse0 env0 tsB2 (fun _ => (0 : ℚ)) (fun _ => true)
        (some 2) none 3 0 0 0 [hdr11]).map
      (fun e => (e.bodyRuns, e.running_after)) = some (2, false) :=
  claim5_max_iterations parse0 env0 tsB2 (fun _ => (0 : ℚ)) (fun _ => true)
    none 2 [hdr11] rfl (fun _ => rfl) (by omega)

/-! ### Claim C6 -/

/-- C6: (i) with auto-stop configured (truthy), a queue on which every
claim misses (no jobs ever appear) stops the loop within 10
iterations; (ii) a successful claim resets the consecutive-idle
counter to 0 whenever the body continues; (iii) with auto-stop not
configured, the idle counter never stops the loop: with no other stop
condition the loop runs forever, no matter how many consecutive misses
occur. -/
theorem claim6_idle_counter (parse : String → Option Payload) (env : Env)
    (tsAt : Nat → Nat → String) (elapsedAt : Nat → ℚ) (runAt : Nat → Bool)
    (maxIter : Option Nat) (store : Sheet) :
    (∀ autoStop : Option Nat, truthy autoStop = true →
      (∀ tf : Nat → String, claim_next_job parse tf store = ⟨none, store, []⟩) →
      (processor_go parse env tsAt elapsedAt runAt maxIter autoStop
        10 0 0 0 store).isSome = true) ∧
    (∀ (autoStop : Option Nat) (it idle : Nat) (j : Job) (idle' : Nat)
        (s' : Sheet),
      (claim_next_job parse (tsAt it) store).job = some j →
      loop_body parse env tsAt autoStop it idle store = .cont idle' s' →
      idle' = 0) ∧
    (truthy maxIter = false → (∀ n, runAt n = true) →
      (∀ tf : Nat → String, claim_next_job parse tf store = ⟨none, store, []⟩) →
      ∀ autoStop : Option Nat, truthy autoStop = false →
      ∀ (fuel it idle br : Nat),
        processor_go parse env tsAt elapsedAt runAt maxIter autoStop
          fuel it idle br store = none) := by
  refine ⟨?_, ?_, ?_⟩
  · intro autoStop hauto hfix
    exact processor_go_idle_stop parse env tsAt elapsedAt runAt maxIter autoStop
      store hauto hfix 10 0 (by omega) (by omega) 0 0
  · intro autoStop it idle j idle' s' hc hbody
    simp only [loop_body, hc] at hbody
    split at hbody
    · exact StepRes.noConfusion hbody
    · injection hbody with h1 h2
      exact h1.symm
  · intro hm hrun hfix autoStop hauto fuel it idle br
    exact processor_go_no_idle_stop parse env tsAt elapsedAt runAt maxIter
      autoStop store hm hauto hrun hfix fuel it idle br

/-- C6 witness: idle-stop within 10 iterations on an empty queue with
auto-stop configured; counter reset to 0 after a concrete successful
claim; and no stop without auto-stop even after 1000 idle
iterations. -/
theorem claim6_witness :
    (processor_go parse0 env0 tsB2 (fun _ => (0 : ℚ)) (fun _ => true)
      none (some 30) 10 0 0 0 [hdr11]).isSome = true ∧
    (0 : Nat) = 0 ∧
    processor_go parse0 env0 tsB2 (fun _ => (0 : ℚ)) (fun _ => true)
      none none 1000 0 0 0 [hdr11] = none := by
  refine ⟨?_, ?_, ?_⟩
  · exact (claim6_idle_counter parse0 env0 tsB2 (fun _ => (0 : ℚ))
      (fun _ => true) none [hdr11]).1 (some 30) rfl (fun _ => rfl)
  · exact (claim6_idle_counter parse0 env0 tsB2 (fun _ => (0 : ℚ))
      (fun _ => true) none
      [hdr11, ["J1", "GENERATE_REPORT", "PENDING", "", "t0", "u@x"]]).2.1
      (some 30) 1 5 ⟨2, "J1", "GENERATE_REPORT", "CLAIMED", [], "t0", "u@x", tsB2 1 2⟩
      0 (process_job env0
        ⟨2, "J1", "GENERATE_REPORT", "CLAIMED", [], "t0", "u@x", tsB2 1 2⟩
        (tsB2 1 0) (tsB2 1 1) (tsB2 1 2)
        (claim_next_job parse0 (tsB2 1)
          [hdr11, ["J1", "GENERATE_REPORT", "PENDING", "", "t0", "u@x"]]).store).store
      (by decide) (by decide)
  · exact (claim6_idle_counter parse0 env0 tsB2 (fun _ => (0 : ℚ))
      (fun _ => true) none [hdr11]).2.2 rfl (fun _ => rfl) (fun _ => rfl)
      none rfl 1000 0 0 0

/-! ### Claim C7 -/

/-- C7: `stop()` while not running returns success = false and changes
no state; `start()` while already running returns success = false,
changes no state and spawns no second loop thread; `start()` with no
bound store likewise returns success = false without spawning. -/
theorem claim7_control_idempotence (st : ProcState) (interval : Nat)
    (mi autoStop : Option Nat) (tid : Nat) (b : Bool) :
    (st.is_running = false →
      stop_processor st b = ⟨false, "Processador não está rodando", st⟩) ∧
    (st.is_running = true →
      (start_processor_background st interval mi autoStop tid).success = false ∧
      (start_processor_background st interval mi autoStop tid).state = st ∧
      (start_processor_background st interval mi autoStop tid).spawned = false) ∧
    (st.spreadsheet_bound = false →
      (start_processor_background st interval mi autoStop tid).success = false ∧
      (start_processor_background st interval mi autoStop tid).state = st ∧
      (start_processor_background st interval mi autoStop tid).spawned = false) := by
  refine ⟨?_, ?_, ?_⟩
  · intro h
    unfold stop_processor
    rw [if_pos h]
  · intro h
    unfold start_processor_background
    rw [if_pos h]
    exact ⟨rfl, rfl, rfl⟩
  · intro h
    unfold start_processor_background
    by_cases hr : st.is_running = true
    · rw [if_pos hr]
      exact ⟨rfl, rfl, rfl⟩
    · rw [if_neg hr, if_pos h]
      exact ⟨rfl, rfl, rfl⟩

/-- C7 witness: concrete control states for all three refusal cases. -/
theorem claim7_witness :
    stop_processor ⟨true, false, none⟩ true
      = ⟨false, "Processador não está rodando", ⟨true, false, none⟩⟩ ∧
    (start_processor_background ⟨true, true, some 1⟩ 5 none (some 30) 2).success
      = false ∧
    (start_processor_background ⟨true, true, some 1⟩ 5 none (some 30) 2).spawned
      = false ∧
    (start_processor_background ⟨false, false, none⟩ 5 none (some 30) 2).success
      = false := by
  refine ⟨?_, ?_, ?_, ?_⟩
  · exact (claim7_control_idempotence ⟨true, false, none⟩ 5 none (some 30) 2
      true).1 rfl
  · exact ((claim7_control_idempotence ⟨true, true, some 1⟩ 5 none (some 30) 2
      true).2.1 rfl).1
  · exact ((claim7_control_idempotence ⟨true, true, some 1⟩ 5 none (some 30) 2
      true).2.1 rfl).2.2
  · exact ((claim7_control_idempotence ⟨false, false, none⟩ 5 none (some 30) 2
      true).2.2 rfl).1

/-! ### Claim C10 -/

/-- C10: `stop()` while the processor is running returns
`{success: true, message: "Processador parado"}` unconditionally after
the bounded join — the reply and resulting state are the same whether
or not the loop thread actually exited within the 10-second timeout. -/
theorem claim10_stop_ignores_join (st : ProcState) (threadExited : Bool)
    (h : st.is_running = true) :
    stop_processor st threadExited
      = ⟨true, "Processador parado", { st with is_running := false }⟩ := by
  unfold stop_processor
  rw [if_neg (show ¬ (st.is_running = false) by rw [h]; simp)]

/-- C10 witness: the same successful reply with the thread reported
dead and reported still alive. -/
theorem claim10_witness :
    stop_processor ⟨true, true, some 1⟩ false
      = ⟨true, "Processador parado", ⟨true, false, some 1⟩⟩ ∧
    stop_processor ⟨true, true, some 1⟩ true
      = ⟨true, "Processador parado", ⟨true, false, some 1⟩⟩ := by
  constructor
  · exact claim10_stop_ignores_join ⟨true, true, some 1⟩ false rfl
  · exact claim10_stop_ignores_join ⟨true, true, some 1⟩ true rfl

end ColabAuto
